import Mathlib

/-! Brick Game 9999-in-1: grid, wipe transition, glyph compositor, switch state machine, score

A shallow embedding of `source/game.cpp` (`transition`, `renderGame`,
the padding of `draw_digital_display`, `BrickGameFramework::onFrame`,
`BrickGameFramework::setScore`).

Conventions.
* C++ `int` values are `Int`; the block counters `i`, `j` of `renderGame`, which start at `0`
  and only count up, are `Nat`. No arithmetic in the embedded code can overflow for grids
  and scores that fit an `int`.
* A C++ `double` is the rational number it denotes (`ℚ`). Where the source does `double`
  arithmetic whose result need not be representable (the products and quotients of
  `transition`), the result is rounded with `to_double`, IEEE 754 binary64
  round-to-nearest, ties-to-even. The sums `transition_percent + 1.5` of `onFrame` stay
  multiples of `0.5` below `202` and are exact; `int` to `double` conversions are exact.
* Calls into collaborators (`subgame_*`, object callbacks) are recorded as events; they are
  taken to leave the framework's own fields alone.
-/

namespace BrickGame

/-! ## Grid (`grid.hpp`) -/

/-- Modelled from the spec: `grid.hpp` is not among the sources. The spec's Grid is a 2D
container of boolean cells addressed by `(x, y)` with `x` in `[0, width)`, `y` in
`[0, height)`, both dimensions non-negative. -/
structure Grid where
  width : Nat
  height : Nat
  cell : Int → Int → Bool

/-- Modelled from the spec: `grid_width` accessor of `grid.hpp` (returns `int`). -/
def grid_width (g : Grid) : Int := g.width

/-- Modelled from the spec: `grid_height` accessor of `grid.hpp` (returns `int`). -/
def grid_height (g : Grid) : Int := g.height

/-- Modelled from the spec: `grid_create(width, height)` of `grid.hpp`: a new all-false grid
of the given size; fails only on negative dimensions. -/
def grid_create (w h : Int) : Option Grid :=
  if 0 ≤ w ∧ 0 ≤ h then some ⟨w.toNat, h.toNat, fun _ _ => false⟩ else none

/-- Modelled from the spec: `grid_get(x, y)` of `grid.hpp`: the cell, or `false` when
`(x, y)` is outside the current bounds. -/
def grid_get (g : Grid) (x y : Int) : Bool :=
  if 0 ≤ x ∧ x < grid_width g ∧ 0 ≤ y ∧ y < grid_height g then g.cell x y else false

/-- Modelled from the spec: `grid_set(x, y, value)` of `grid.hpp`: writes the value; a no-op
when `(x, y)` is out of bounds. -/
def grid_set (g : Grid) (x y : Int) (v : Bool) : Grid :=
  if 0 ≤ x ∧ x < grid_width g ∧ 0 ≤ y ∧ y < grid_height g then
    { g with cell := fun a b => if a = x ∧ b = y then v else g.cell a b }
  else g

/-- Modelled from the spec: `grid_clear` of `grid.hpp`: all cells false, size preserved. -/
def grid_clear (g : Grid) : Grid := { g with cell := fun _ _ => false }

/-! ## Wipe transition (`transition`, game.cpp 475-494) -/

/-- Conversion `double → int` of C++: truncation toward zero. -/
def truncToInt (q : ℚ) : Int := if 0 ≤ q then ⌊q⌋ else ⌈q⌉

/-- Rounding of a rational to the nearest integer, ties to the even one. -/
def round_half_even (q : ℚ) : Int :=
  if q - ⌊q⌋ < 1 / 2 then ⌊q⌋
  else if 1 / 2 < q - ⌊q⌋ then ⌊q⌋ + 1
  else if ⌊q⌋ % 2 = 0 then ⌊q⌋ else ⌊q⌋ + 1

/-- Exponent of the last place of the binary64 numbers around `q`: 52 below the exponent of
`q` (53-bit significand), and `-1074` in the subnormal range. -/
def double_exponent (q : ℚ) : Int := max (Int.log 2 |q| - 52) (-1074)

/-- The `double` nearest to `q`: IEEE 754 binary64 round-to-nearest, ties-to-even, the result
of a `double` operation whose exact value is `q` (for magnitudes below `2 ^ 1024`, no
overflow). -/
def to_double (q : ℚ) : ℚ :=
  (round_half_even (q / (2 : ℚ) ^ double_exponent q) : ℚ) * (2 : ℚ) ^ double_exponent q

/-- The loop bound `(double)grid_height(grid) * ((double)percent / 100.)` of stage 0: a
`double` quotient and a `double` product. -/
def stage0_bound (g : Grid) (percent : ℚ) : ℚ :=
  to_double ((grid_height g : ℚ) * to_double (percent / 100))

/-- The start row `int y = (double)grid_height(grid) * ((double)(percent - 100) / 100.)` of
stage 1: a `double` difference, quotient and product, then the conversion to `int`. -/
def stage1_start (g : Grid) (percent : ℚ) : Int :=
  truncToInt (to_double ((grid_height g : ℚ) * to_double (to_double (percent - 100) / 100)))

/-- The inner loop `for (int x = ..; x < grid_width(grid); x++) grid_set(grid, x, y, true);`
entered with counter `x`. -/
def fill_row (g : Grid) (y : Int) (x : Int) : Grid :=
  if x < grid_width g then fill_row (grid_set g x y true) y (x + 1) else g
termination_by (grid_width g - x).toNat
decreasing_by
  have hw : grid_width (grid_set g x y true) = grid_width g := by
    unfold grid_set; split <;> rfl
  rw [hw]; omega

/-- The stage-0 loop `for (int y = ..; y < (double)grid_height(grid) * ((double)percent / 100.); y++)`
entered with counter `y`: the loop condition compares `y` with the `double` product. -/
def transition_loop0 (g : Grid) (percent : ℚ) (y : Int) : Grid :=
  if (y : ℚ) < stage0_bound g percent then
    transition_loop0 (fill_row g y 0) percent (y + 1)
  else g
termination_by (⌈stage0_bound g percent⌉ - y).toNat
decreasing_by
  have hh : ∀ (g : Grid) (r x : Int), grid_height (fill_row g r x) = grid_height g := by
    intro g r x
    induction g, r, x using fill_row.induct with
    | case1 g r x hx ih =>
      rw [fill_row, if_pos hx, ih]; unfold grid_set; split <;> rfl
    | case2 g r x hx => rw [fill_row, if_neg hx]
  have hb : stage0_bound (fill_row g y 0) percent = stage0_bound g percent := by
    unfold stage0_bound; rw [hh]
  rw [hb]
  have h1 : y < ⌈stage0_bound g percent⌉ := Int.lt_ceil.mpr (by assumption)
  omega

/-- The stage-1 loop `for (int y = ..; y < grid_height(grid); y++)` entered with counter `y`. -/
def transition_loop1 (g : Grid) (y : Int) : Grid :=
  if y < grid_height g then transition_loop1 (fill_row g y 0) (y + 1) else g
termination_by (grid_height g - y).toNat
decreasing_by
  have hh : ∀ (g : Grid) (r x : Int), grid_height (fill_row g r x) = grid_height g := by
    intro g r x
    induction g, r, x using fill_row.induct with
    | case1 g r x hx ih =>
      rw [fill_row, if_pos hx, ih]; unfold grid_set; split <;> rfl
    | case2 g r x hx => rw [fill_row, if_neg hx]
  rw [hh]; omega

/-- `void transition(std::vector<std::vector<bool>>& grid, double percent)`. -/
def transition (g : Grid) (percent : ℚ) : Grid :=
  if 0 < percent ∧ percent ≤ 100 then
    transition_loop0 g percent 0
  else if 100 < percent ∧ percent ≤ 200 then
    transition_loop1 g (stage1_start g percent)
  else g

/-! ## Glyph compositor (the cell loop of `renderGame`, game.cpp 312-387) -/

/-- One `draw_sprite(vg, x, y, width, height, sprite_name)` call. The numeric arguments are
`int` expressions converted to `float`, kept as integers. -/
structure DrawCall where
  x : Int
  y : Int
  width : Int
  height : Int
  sprite_name : String
deriving DecidableEq, Repr

/-- `int cell_width = 31;` -/
def cell_width : Int := 31

/-- `int cell_height = 31;` -/
def cell_height : Int := 31

/-- `int grid_offset_x = (-(draw_grid_width * cell_width)) / 2.;` -/
def grid_offset_x (g : Grid) : Int := truncToInt (((-(grid_width g * cell_width) : Int) : ℚ) / 2)

/-- `int grid_offset_y = (-(draw_grid_height * cell_height)) / 2.;` -/
def grid_offset_y (g : Grid) : Int := truncToInt (((-(grid_height g * cell_height) : Int) : ℚ) / 2)

/-- `std::string num = std::to_string(pos); if (pos < 10) num = "0" + num;` -/
def sprite_num (pos : Nat) : String :=
  if pos < 10 then "0" ++ toString pos else toString pos

/-- The single-cell branch `if (grid_get(..)) draw_sprite(.., "spr_cell_selected"); else
draw_sprite(.., "spr_cell_unselected");` at pixel position `(x, y)`. -/
def draw_single (x y : Int) (lit : Bool) : DrawCall :=
  if lit then ⟨x, y, cell_width, cell_height, "spr_cell_selected"⟩
  else ⟨x, y, cell_width, cell_height, "spr_cell_unselected"⟩

/-- Body of the inner loop of `renderGame` (lines 337-380) for the block at `(i, j)`. -/
def render_block (g : Grid) (i j : Nat) : List DrawCall :=
  let draw_grid_width := grid_width g
  let draw_grid_height := grid_height g
  let x : Int := grid_offset_x g + (i : Int) * cell_width
  let y : Int := grid_offset_y g + (j : Int) * cell_height
  let ul := grid_get g i j
  let ur := grid_get g (i + 1) j
  let bl := grid_get g i (j + 1)
  let br := grid_get g (i + 1) (j + 1)
  let pos : Nat := 1 * ul.toNat + 2 * ur.toNat + 4 * bl.toNat + 8 * br.toNat
  let num := sprite_num pos
  if (i : Int) + 2 ≤ draw_grid_width ∧ (j : Int) + 2 ≤ draw_grid_height then
    [⟨x, y, cell_width * 2, cell_height * 2, "spr_cells_" ++ num⟩]
  else
    (if (i : Int) < draw_grid_width ∧ (j : Int) < draw_grid_height then
      [draw_single x y (grid_get g i j)] else [])
    ++ (if (i : Int) + 1 < draw_grid_width ∧ (j : Int) < draw_grid_height then
      [draw_single (x + cell_width) y (grid_get g (i + 1) j)] else [])
    ++ (if (i : Int) < draw_grid_width ∧ (j : Int) + 1 < draw_grid_height then
      [draw_single x (y + cell_height) (grid_get g i (j + 1))] else [])

/-- The loop `for (int j = ..; j < draw_grid_height; j += 2)` entered with counter `j`. -/
def render_column (g : Grid) (i j : Nat) : List DrawCall :=
  if (j : Int) < grid_height g then render_block g i j ++ render_column g i (j + 2) else []
termination_by g.height - j
decreasing_by
  have h : (j : Int) < grid_height g := by assumption
  unfold grid_height at h; omega

/-- The loop `for (int i = ..; i < draw_grid_width; i += 2)` entered with counter `i`. -/
def render_columns (g : Grid) (i : Nat) : List DrawCall :=
  if (i : Int) < grid_width g then render_column g i 0 ++ render_columns g (i + 2) else []
termination_by g.width - i
decreasing_by
  have h : (i : Int) < grid_width g := by assumption
  unfold grid_width at h; omega

/-- The `draw_sprite` calls of `renderGame`, in the order issued. -/
def render_cells (g : Grid) : List DrawCall := render_columns g 0

/-- A draw call covers cell `(cx, cy)` of grid `g` when the pixel square of that cell lies
inside the rectangle of the call. -/
def covers (g : Grid) (c : DrawCall) (cx cy : Int) : Bool :=
  decide (c.x ≤ grid_offset_x g + cx * cell_width
    ∧ grid_offset_x g + cx * cell_width + cell_width ≤ c.x + c.width
    ∧ c.y ≤ grid_offset_y g + cy * cell_height
    ∧ grid_offset_y g + cy * cell_height + cell_height ≤ c.y + c.height)

/-- The two-digit zero-padded decimal text of `n < 100`: the character of the tens digit
followed by the character of the units digit. -/
def two_digit (n : Nat) : String :=
  String.mk [Char.ofNat (48 + n / 10), Char.ofNat (48 + n % 10)]

/-- The composite call the spec describes for the 2x2 block at `(i, j)`: 2x2 cells large at
the block's position, named `spr_cells_NN` with `NN` the two-digit zero-padded decimal of
the index with bit0 = top-left, bit1 = top-right, bit2 = bottom-left, bit3 = bottom-right. -/
def composite_call (g : Grid) (i j : Nat) : DrawCall :=
  ⟨grid_offset_x g + (i : Int) * cell_width, grid_offset_y g + (j : Int) * cell_height,
   2 * cell_width, 2 * cell_height,
   "spr_cells_" ++ two_digit ((grid_get g i j).toNat + 2 * (grid_get g (i + 1) j).toNat
      + 4 * (grid_get g i (j + 1)).toNat + 8 * (grid_get g (i + 1) (j + 1)).toNat)⟩

/-- A grid of the given size whose cells are all `v`. -/
def const_grid (w h : Nat) (v : Bool) : Grid := ⟨w, h, fun _ _ => v⟩

/-- A grid of the given size whose true cells are the listed ones. -/
def lit_grid (w h : Nat) (lit : List (Int × Int)) : Grid :=
  ⟨w, h, fun x y => decide ((x, y) ∈ lit)⟩

/-! ## Score display (the padding of `draw_digital_display`, game.cpp 408-411) -/

/-- The loop `while (temp_score.size() < length) temp_score = " " + temp_score;` on
`std::string temp_score = display_string`. A `std::string` is the UTF-8 text it holds and
`size()` is its number of bytes. -/
def pad_score (temp_score : String) (length : Nat) : String :=
  if temp_score.utf8ByteSize < length then pad_score (" " ++ temp_score) length
  else temp_score
termination_by length - temp_score.utf8ByteSize
decreasing_by
  have h1 : (" " ++ temp_score).utf8ByteSize = temp_score.utf8ByteSize + 1 := by
    show String.utf8ByteSize ⟨[' '] ++ temp_score.data⟩ = _
    rw [String.utf8ByteSize_mk, String.utf8Len_append]
    exact Nat.add_comm _ _
  rw [h1]
  omega

/-- Default `length = 8` of `draw_digital_display`. -/
def display_length : Nat := 8

/-- The single-cell call the spec describes for cell `(cx, cy)`: one cell large at that cell's
position, `spr_cell_selected` if the cell is true and `spr_cell_unselected` otherwise. -/
def single_call (g : Grid) (cx cy : Nat) : DrawCall :=
  ⟨grid_offset_x g + (cx : Int) * cell_width, grid_offset_y g + (cy : Int) * cell_height,
   cell_width, cell_height,
   if grid_get g cx cy = true then "spr_cell_selected" else "spr_cell_unselected"⟩

/-! ## Framework state and `BrickGameFramework::onFrame` (game.cpp 496-622) -/

/-- The buttons of `padGetButtonsDown` that `onFrame` tests. -/
structure Buttons where
  plus : Bool
  l : Bool
  y : Bool
  x : Bool
  b : Bool
  a : Bool
  minus : Bool
deriving DecidableEq, Repr

/-- No button pressed. -/
def no_buttons : Buttons := ⟨false, false, false, false, false, false, false⟩

/-- Only Y pressed. -/
def press_y : Buttons := { no_buttons with y := true }

/-- Only X pressed. -/
def press_x : Buttons := { no_buttons with x := true }

/-- The fields of `BrickGameFramework` (game.h) that `onFrame` and `setScore` read or write,
and the global `objects` list. -/
structure State where
  current_game : Int
  next_game : Int
  transition_stage : Int
  transition_percent : ℚ
  game_grid : Grid
  target_grid_width : Int
  target_grid_height : Int
  show_ui : Bool
  screen_orientation : Int
  objects : List Nat
  highscore : ℚ
  score_display : String
  highscore_display : String

/-- A call `onFrame` makes into a collaborator, recorded in the order made. -/
inductive Event where
  | objects_clear
  | subgame_exit (game : Nat)
  | subgame_init (game : Nat)
  | step_function (object : Nat)
  | subgame_run (game : Nat)
  | draw_function (object : Nat)
  | subgame_draw (game : Nat)
deriving DecidableEq, Repr

/-- Number of entries of `game_list` after the constructor (two `push_back`s, lines 171-172). -/
def game_count : Int := 2

/-- `game_list.at(index)`: the position found, `none` when `at` throws `std::out_of_range`. -/
def game_list_at (index : Int) : Option Nat :=
  if 0 ≤ index ∧ index < game_count then some index.toNat else none

/-- Outcome of one `onFrame` call. -/
inductive FrameResult where
  | quit
  | thrown
  | running (s : State) (events : List Event)

/-- Lines 506-531: the L, Y, X, B and A buttons. -/
def handle_buttons (s : State) (k : Buttons) : State :=
  let s := if k.l then { s with show_ui := !s.show_ui } else s
  let s := if k.y then { s with next_game := 0 } else s
  let s := if k.x then { s with next_game := 1 } else s
  let s := if k.b then { s with target_grid_width := 10, target_grid_height := 20 } else s
  let s := if k.a then { s with target_grid_width := 20, target_grid_height := 20 } else s
  s

/-- Lines 533-540: one step of the width toward `target_grid_width`. -/
def resize_width (s : State) : Option State :=
  if grid_width s.game_grid < s.target_grid_width then
    (grid_create (grid_width s.game_grid + 1) (grid_height s.game_grid)).map
      (fun g => { s with game_grid := g })
  else if grid_width s.game_grid > s.target_grid_width then
    (grid_create (grid_width s.game_grid - 1) (grid_height s.game_grid)).map
      (fun g => { s with game_grid := g })
  else some s

/-- Lines 542-549: one step of the height toward `target_grid_height`. -/
def resize_height (s : State) : Option State :=
  if grid_height s.game_grid < s.target_grid_height then
    (grid_create (grid_width s.game_grid) (grid_height s.game_grid + 1)).map
      (fun g => { s with game_grid := g })
  else if grid_height s.game_grid > s.target_grid_height then
    (grid_create (grid_width s.game_grid) (grid_height s.game_grid - 1)).map
      (fun g => { s with game_grid := g })
  else some s

/-- Lines 533-551: both resize steps, then `grid_clear(game_grid)`. -/
def resize_grid (s : State) : Option State := do
  let s ← resize_width s
  let s ← resize_height s
  pure { s with game_grid := grid_clear s.game_grid }

/-- Lines 553-557: a pending, different game starts the wipe when idle. -/
def start_transition (s : State) : State :=
  if (s.next_game ≠ -1 ∧ s.next_game ≠ s.current_game) ∧ s.transition_stage = -1 then
    { s with transition_stage := 0, transition_percent := 0 }
  else s

/-- Lines 568-572: `if (current_game != -1) { objects.clear(); game_list.at(current_game)->subgame_exit(); }`. -/
def exit_current (s : State) : Option (State × List Event) :=
  if s.current_game ≠ -1 then do
    let game ← game_list_at s.current_game
    pure ({ s with objects := [] }, [Event.objects_clear, Event.subgame_exit game])
  else pure (s, [])

/-- Lines 574-577: `current_game = next_game; next_game = -1; game_list.at(current_game)->subgame_init();`. -/
def enter_next (s : State) : Option (State × List Event) := do
  let s := { s with current_game := s.next_game }
  let s := { s with next_game := -1 }
  let game ← game_list_at s.current_game
  pure (s, [Event.subgame_init game])

/-- Lines 559-595: the transition update. -/
def advance_transition (s : State) : Option (State × List Event) :=
  if s.transition_stage = 0 then do
    let (s, events) ←
      if s.transition_percent < 100 then
        pure ({ s with transition_percent := s.transition_percent + 3 / 2 }, [])
      else do
        let s := { s with transition_stage := 1 }
        let (s, exited) ← exit_current s
        let (s, entered) ← enter_next s
        pure (s, exited ++ entered)
    pure ({ s with game_grid := transition s.game_grid s.transition_percent }, events)
  else if s.transition_stage = 1 then
    let s :=
      if s.transition_percent < 200 then
        { s with transition_percent := s.transition_percent + 3 / 2 }
      else
        { s with transition_percent := 0, transition_stage := -1 }
    pure ({ s with game_grid := transition s.game_grid s.transition_percent }, [])
  else pure (s, [])

/-- Lines 597-611: object and game callbacks of the current game. -/
def dispatch (s : State) : Option (List Event) :=
  if s.current_game ≠ -1 then do
    let stepped ←
      if s.transition_stage = -1 then do
        let game ← game_list_at s.current_game
        pure (s.objects.map Event.step_function ++ [Event.subgame_run game])
      else pure []
    let game ← game_list_at s.current_game
    pure (stepped ++ s.objects.map Event.draw_function ++ [Event.subgame_draw game])
  else pure []

/-- Lines 613-618: the Minus button rotates the screen. -/
def rotate (s : State) (k : Buttons) : State :=
  if k.minus then { s with screen_orientation := (s.screen_orientation + 1) % 4 } else s

/-- `bool BrickGameFramework::onFrame(u64 ns)`: `quit` is `return false`, `running` is
`return true` with the new state and the collaborator calls made. The closing `render(ns)`
only draws (see `render_cells`, `pad_score`). -/
def onFrame (s : State) (k : Buttons) : FrameResult :=
  if k.plus then FrameResult.quit
  else
    let s := handle_buttons s k
    match resize_grid s with
    | none => FrameResult.thrown
    | some s =>
      let s := start_transition s
      match advance_transition s with
      | none => FrameResult.thrown
      | some (s, switched) =>
        match dispatch s with
        | none => FrameResult.thrown
        | some called => FrameResult.running (rotate s k) (switched ++ called)

/-- The state the constructor leaves (lines 159-172, member initialisers of game.h): the grid
is `grid_create(10, 20)` and the global `objects` list is still empty. -/
def initial_state : State :=
  { current_game := -1
    next_game := 0
    transition_stage := -1
    transition_percent := 0
    game_grid := ⟨10, 20, fun _ _ => false⟩
    target_grid_width := 10
    target_grid_height := 20
    show_ui := true
    screen_orientation := 0
    objects := []
    highscore := 0
    score_display := ""
    highscore_display := "" }

/-- One completed tick: state before, buttons, state after, collaborator calls. -/
structure Tick where
  pre : State
  keys : Buttons
  post : State
  events : List Event

/-- The driver loop: `onFrame` once per entry of `keys`, each returning `true`; `none` when a
tick returns `false` or throws. -/
def run_frames : State → List Buttons → Option (List Tick)
  | _, [] => some []
  | s, k :: ks =>
    match onFrame s k with
    | FrameResult.running s1 events =>
      (run_frames s1 ks).map (fun ticks => ⟨s, k, s1, events⟩ :: ticks)
    | _ => none

/-- State after a list of completed ticks that started in `s`. -/
def final_state (s : State) (ticks : List Tick) : State :=
  match ticks.getLast? with
  | some t => t.post
  | none => s

/-- States the framework can be in at the start of a tick. -/
inductive Reachable : State → Prop where
  | init : Reachable initial_state
  | frame {s s1 : State} {k : Buttons} {events : List Event} :
      Reachable s → onFrame s k = FrameResult.running s1 events → Reachable s1

/-- The stage-0 completion test of lines 559-566 as this tick meets it: after the buttons
and the start check, `transition_stage == 0` and not `transition_percent < 100`. -/
def completes_stage0 (s : State) (k : Buttons) : Bool :=
  match resize_grid (handle_buttons s k) with
  | none => false
  | some s1 =>
    decide ((start_transition s1).transition_stage = 0
      ∧ ¬ (start_transition s1).transition_percent < 100)

/-- The event is a `subgame_exit` or `subgame_init` call. -/
def Event.is_lifecycle : Event → Bool
  | Event.subgame_exit _ => true
  | Event.subgame_init _ => true
  | _ => false

/-- `void BrickGameFramework::setScore(std::string score)`. -/
def setScoreString (s : State) (score : String) : State := { s with score_display := score }

/-- `void BrickGameFramework::setHighScore(std::string score)`. -/
def setHighScore (s : State) (score : String) : State := { s with highscore_display := score }

/-- `void BrickGameFramework::setScore(int score)`; `highscore` is a `double`. -/
def setScore (s : State) (score : Int) : State :=
  let hs : Int := truncToInt s.highscore
  let (hs, s) :=
    if (score : ℚ) > s.highscore then (score, { s with highscore := (score : ℚ) })
    else (hs, s)
  setHighScore (setScoreString s (toString score)) (toString hs)

/-- Successive `setScore(int)` calls. -/
def set_scores (s : State) (scores : List Int) : State := scores.foldl setScore s

/-- The completed ticks of `run_frames`, none when the run does not complete. -/
def run_ticks (s : State) (keys : List Buttons) : List Tick :=
  (run_frames s keys).getD []

/-- The switch fields of a state: `current_game`, `next_game`, `transition_stage`,
`transition_percent`. -/
def State.switch (s : State) : Int × Int × Int × ℚ :=
  (s.current_game, s.next_game, s.transition_stage, s.transition_percent)

/-- What lines 511-519 and 553-595 of `onFrame` do to the switch fields alone (no grid, no
callbacks, no `at` failure): buttons, start check, transition update. -/
def switch_step (w : Int × Int × Int × ℚ) (k : Buttons) : Int × Int × Int × ℚ :=
  let (current, next, stage, percent) := w
  let next := if k.y then 0 else next
  let next := if k.x then 1 else next
  let (stage, percent) :=
    if (next ≠ -1 ∧ next ≠ current) ∧ stage = -1 then (0, 0) else (stage, percent)
  if stage = 0 then
    if percent < 100 then (current, next, stage, percent + 3 / 2)
    else (next, -1, 1, percent)
  else if stage = 1 then
    if percent < 200 then (current, next, stage, percent + 3 / 2)
    else (current, next, -1, 0)
  else (current, next, stage, percent)

/-- The switch fields after each of a list of ticks. -/
def switch_run : Int × Int × Int × ℚ → List Buttons → List (Int × Int × Int × ℚ)
  | _, [] => []
  | w, k :: ks => switch_step w k :: switch_run (switch_step w k) ks

/-- The tick leaves `current_game` alone and calls neither `subgame_exit` nor `subgame_init`. -/
def Tick.quiet (t : Tick) : Prop :=
  completes_stage0 t.pre t.keys = false
  ∧ t.post.current_game = t.pre.current_game
  ∧ t.events.filter Event.is_lifecycle = []

/-- The tick is the one on which stage 0 completes: it finds `transition_percent >= 100` in
stage 0; when there is an old game (`current_game != -1`) it clears the object list and
calls that game's `subgame_exit`; then `current_game` becomes `next_game` (as the buttons of
this tick left it: the value at the start of the tick when neither X nor Y is pressed),
`next_game` becomes `-1`, `subgame_init` of the new game is called and the stage is 1; the
rest of the tick only draws the new game. -/
def Tick.switches (t : Tick) : Prop :=
  completes_stage0 t.pre t.keys = true
  ∧ (0 ≤ (handle_buttons t.pre t.keys).next_game
      ∧ (handle_buttons t.pre t.keys).next_game < game_count)
  ∧ t.post.current_game = (handle_buttons t.pre t.keys).next_game
  ∧ t.post.next_game = -1
  ∧ t.post.transition_stage = 1
  ∧ (t.pre.current_game ≠ -1 → t.post.objects = [])
  ∧ t.events =
      (if t.pre.current_game ≠ -1 then
        [Event.objects_clear, Event.subgame_exit t.pre.current_game.toNat] else [])
      ++ [Event.subgame_init t.post.current_game.toNat]
      ++ (t.post.objects.map Event.draw_function
          ++ [Event.subgame_draw t.post.current_game.toNat])
  ∧ (t.keys.x = false → t.keys.y = false → t.post.current_game = t.pre.next_game)

/-- The indices `onFrame` looks up stay inside `game_list`: `current_game` and `next_game` are
`-1`, `0` or `1`, and `next_game` is not `-1` during stage 0. -/
def State.indices_ok (s : State) : Prop :=
  (-1 ≤ s.current_game ∧ s.current_game < game_count)
  ∧ (-1 ≤ s.next_game ∧ s.next_game < game_count)
  ∧ (s.transition_stage = 0 → s.next_game ≠ -1)

/-- Both resize targets are non-negative. -/
def State.targets_ok (s : State) : Prop :=
  0 ≤ s.target_grid_width ∧ 0 ≤ s.target_grid_height

/-- The call returned `true`. -/
def FrameResult.is_running : FrameResult → Bool
  | FrameResult.running _ _ => true
  | _ => false

/-- The state a completed tick leaves; `d` when the tick did not complete. -/
def FrameResult.state (d : State) : FrameResult → State
  | FrameResult.running s _ => s
  | _ => d

/-- The collaborator calls of a completed tick. -/
def FrameResult.events : FrameResult → List Event
  | FrameResult.running _ events => events
  | _ => []

/-- The position in `game_list` of the game an event calls, if it calls one. -/
def Event.game : Event → Option Nat
  | Event.subgame_exit game => some game
  | Event.subgame_init game => some game
  | Event.subgame_run game => some game
  | Event.subgame_draw game => some game
  | _ => none

/-! # Theorems -/

/-! ## Grid and wipe transition -/

@[simp] theorem grid_width_set (g : Grid) (x y : Int) (v : Bool) :
    grid_width (grid_set g x y v) = grid_width g := by
  unfold grid_set; split <;> rfl

@[simp] theorem grid_height_set (g : Grid) (x y : Int) (v : Bool) :
    grid_height (grid_set g x y v) = grid_height g := by
  unfold grid_set; split <;> rfl

theorem grid_get_set (g : Grid) (x y : Int) (v : Bool) (a b : Int) :
    grid_get (grid_set g x y v) a b =
      if a = x ∧ b = y ∧ 0 ≤ x ∧ x < grid_width g ∧ 0 ≤ y ∧ y < grid_height g then v
      else grid_get g a b := by
  by_cases hin : 0 ≤ x ∧ x < grid_width g ∧ 0 ≤ y ∧ y < grid_height g
  · have hs : grid_set g x y v
        = { g with cell := fun a b => if a = x ∧ b = y then v else g.cell a b } := by
      unfold grid_set; rw [if_pos hin]
    by_cases hab : a = x ∧ b = y
    · obtain ⟨rfl, rfl⟩ := hab
      rw [if_pos ⟨rfl, rfl, hin⟩, hs]
      unfold grid_get
      rw [if_pos (by exact hin)]
      simp
    · have h1 : ¬ (a = x ∧ b = y ∧ 0 ≤ x ∧ x < grid_width g ∧ 0 ≤ y ∧ y < grid_height g) :=
        fun h => hab ⟨h.1, h.2.1⟩
      rw [if_neg h1, hs]
      unfold grid_get grid_width grid_height
      simp only [if_neg hab]
  · have h1 : ¬ (a = x ∧ b = y ∧ 0 ≤ x ∧ x < grid_width g ∧ 0 ≤ y ∧ y < grid_height g) :=
      fun h => hin h.2.2
    rw [if_neg h1]
    simp only [grid_set, if_neg hin]

@[simp] theorem grid_width_fill_row (g : Grid) (y x : Int) :
    grid_width (fill_row g y x) = grid_width g := by
  induction g, y, x using fill_row.induct with
  | case1 g y x hx ih => rw [fill_row, if_pos hx, ih, grid_width_set]
  | case2 g y x hx => rw [fill_row, if_neg hx]

@[simp] theorem grid_height_fill_row (g : Grid) (y x : Int) :
    grid_height (fill_row g y x) = grid_height g := by
  induction g, y, x using fill_row.induct with
  | case1 g y x hx ih => rw [fill_row, if_pos hx, ih, grid_height_set]
  | case2 g y x hx => rw [fill_row, if_neg hx]

theorem grid_get_fill_row (g : Grid) (y x : Int) (a b : Int) :
    grid_get (fill_row g y x) a b =
      if b = y ∧ x ≤ a ∧ 0 ≤ a ∧ a < grid_width g ∧ 0 ≤ y ∧ y < grid_height g then true
      else grid_get g a b := by
  induction g, y, x using fill_row.induct with
  | case1 g y x hx ih =>
    rw [fill_row, if_pos hx, ih, grid_get_set, grid_width_set, grid_height_set]
    by_cases h1 : b = y ∧ x + 1 ≤ a ∧ 0 ≤ a ∧ a < grid_width g ∧ 0 ≤ y ∧ y < grid_height g
    · rw [if_pos h1, if_pos ⟨h1.1, by omega, h1.2.2⟩]
    · rw [if_neg h1]
      by_cases h2 : a = x ∧ b = y ∧ 0 ≤ x ∧ x < grid_width g ∧ 0 ≤ y ∧ y < grid_height g
      · rw [if_pos h2, if_pos ⟨h2.2.1, by omega, by omega, by omega, h2.2.2.2.2⟩]
      · rw [if_neg h2, if_neg]
        rintro ⟨hb, hxa, ha0, haw, hy⟩
        rcases eq_or_lt_of_le hxa with heq | hlt
        · exact h2 ⟨heq.symm, hb, by omega, by omega, hy⟩
        · exact h1 ⟨hb, by omega, ha0, haw, hy⟩
  | case2 g y x hx =>
    rw [fill_row, if_neg hx, if_neg]
    rintro ⟨-, hxa, -, haw, -⟩
    omega

@[simp] theorem grid_width_loop0 (g : Grid) (p : ℚ) (y : Int) :
    grid_width (transition_loop0 g p y) = grid_width g := by
  induction g, p, y using transition_loop0.induct with
  | case1 g p y hy ih => rw [transition_loop0, if_pos hy, ih, grid_width_fill_row]
  | case2 g p y hy => rw [transition_loop0, if_neg hy]

@[simp] theorem grid_height_loop0 (g : Grid) (p : ℚ) (y : Int) :
    grid_height (transition_loop0 g p y) = grid_height g := by
  induction g, p, y using transition_loop0.induct with
  | case1 g p y hy ih => rw [transition_loop0, if_pos hy, ih, grid_height_fill_row]
  | case2 g p y hy => rw [transition_loop0, if_neg hy]

@[simp] theorem grid_width_loop1 (g : Grid) (y : Int) :
    grid_width (transition_loop1 g y) = grid_width g := by
  induction g, y using transition_loop1.induct with
  | case1 g y hy ih => rw [transition_loop1, if_pos hy, ih, grid_width_fill_row]
  | case2 g y hy => rw [transition_loop1, if_neg hy]

@[simp] theorem grid_height_loop1 (g : Grid) (y : Int) :
    grid_height (transition_loop1 g y) = grid_height g := by
  induction g, y using transition_loop1.induct with
  | case1 g y hy ih => rw [transition_loop1, if_pos hy, ih, grid_height_fill_row]
  | case2 g y hy => rw [transition_loop1, if_neg hy]

theorem stage0_bound_fill_row (g : Grid) (p : ℚ) (y x : Int) :
    stage0_bound (fill_row g y x) p = stage0_bound g p := by
  unfold stage0_bound; rw [grid_height_fill_row]

theorem grid_get_loop0 (g : Grid) (p : ℚ) (y : Int) (a b : Int) :
    grid_get (transition_loop0 g p y) a b =
      if 0 ≤ a ∧ a < grid_width g ∧ y ≤ b ∧ 0 ≤ b ∧ b < grid_height g
          ∧ (b : ℚ) < stage0_bound g p then true
      else grid_get g a b := by
  induction g, p, y using transition_loop0.induct with
  | case1 g p y hy ih =>
    rw [transition_loop0, if_pos hy, ih, grid_get_fill_row, grid_width_fill_row,
      grid_height_fill_row, stage0_bound_fill_row]
    by_cases h1 : 0 ≤ a ∧ a < grid_width g ∧ y + 1 ≤ b ∧ 0 ≤ b ∧ b < grid_height g
          ∧ (b : ℚ) < stage0_bound g p
    · rw [if_pos h1, if_pos ⟨h1.1, h1.2.1, by omega, h1.2.2.2⟩]
    · rw [if_neg h1]
      by_cases h2 : b = y ∧ 0 ≤ a ∧ 0 ≤ a ∧ a < grid_width g ∧ 0 ≤ y ∧ y < grid_height g
      · obtain ⟨rfl, ha, -, haw, hb0, hbh⟩ := h2
        rw [if_pos ⟨rfl, ha, ha, haw, hb0, hbh⟩, if_pos ⟨ha, haw, le_refl _, hb0, hbh, hy⟩]
      · rw [if_neg h2, if_neg]
        rintro ⟨ha0, haw, hyb, hb0, hbh, hbp⟩
        rcases eq_or_lt_of_le hyb with heq | hlt
        · exact h2 ⟨heq.symm, ha0, ha0, haw, by omega, by omega⟩
        · exact h1 ⟨ha0, haw, by omega, hb0, hbh, hbp⟩
  | case2 g p y hy =>
    rw [transition_loop0, if_neg hy, if_neg]
    rintro ⟨-, -, hyb, -, -, hbp⟩
    apply hy
    have : (y : ℚ) ≤ (b : ℚ) := by exact_mod_cast hyb
    exact lt_of_le_of_lt this hbp

theorem grid_get_loop1 (g : Grid) (y : Int) (a b : Int) :
    grid_get (transition_loop1 g y) a b =
      if 0 ≤ a ∧ a < grid_width g ∧ y ≤ b ∧ 0 ≤ b ∧ b < grid_height g then true
      else grid_get g a b := by
  induction g, y using transition_loop1.induct with
  | case1 g y hy ih =>
    rw [transition_loop1, if_pos hy, ih, grid_get_fill_row, grid_width_fill_row,
      grid_height_fill_row]
    by_cases h1 : 0 ≤ a ∧ a < grid_width g ∧ y + 1 ≤ b ∧ 0 ≤ b ∧ b < grid_height g
    · rw [if_pos h1, if_pos ⟨h1.1, h1.2.1, by omega, h1.2.2.2⟩]
    · rw [if_neg h1]
      by_cases h2 : b = y ∧ 0 ≤ a ∧ 0 ≤ a ∧ a < grid_width g ∧ 0 ≤ y ∧ y < grid_height g
      · obtain ⟨rfl, ha, -, haw, hb0, hbh⟩ := h2
        rw [if_pos ⟨rfl, ha, ha, haw, hb0, hbh⟩, if_pos ⟨ha, haw, le_refl _, hb0, hbh⟩]
      · rw [if_neg h2, if_neg]
        rintro ⟨ha0, haw, hyb, hb0, hbh⟩
        rcases eq_or_lt_of_le hyb with heq | hlt
        · exact h2 ⟨heq.symm, ha0, ha0, haw, by omega, by omega⟩
        · exact h1 ⟨ha0, haw, by omega, hb0, hbh⟩
  | case2 g y hy =>
    rw [transition_loop1, if_neg hy, if_neg]
    rintro ⟨-, -, hyb, -, hbh⟩
    omega

theorem round_half_even_intCast (m : Int) : round_half_even (m : ℚ) = m := by
  unfold round_half_even
  rw [Int.floor_intCast, sub_self, if_pos (by norm_num)]

theorem round_half_even_nonneg (q : ℚ) (h : 0 ≤ q) : 0 ≤ round_half_even q := by
  have hf : 0 ≤ ⌊q⌋ := Int.floor_nonneg.mpr h
  unfold round_half_even
  split_ifs <;> omega

theorem to_double_nonneg (q : ℚ) (h : 0 ≤ q) : 0 ≤ to_double q := by
  unfold to_double
  have hp : (0 : ℚ) < (2 : ℚ) ^ double_exponent q := zpow_pos (by norm_num) _
  have hr : 0 ≤ round_half_even (q / (2 : ℚ) ^ double_exponent q) :=
    round_half_even_nonneg _ (div_nonneg h (le_of_lt hp))
  exact mul_nonneg (by exact_mod_cast hr) (le_of_lt hp)

/-- Integers below `2 ^ 53` are `double`s. -/
theorem to_double_natCast (n : Nat) (h : n < 2 ^ 53) : to_double (n : ℚ) = n := by
  have he : double_exponent (n : ℚ) ≤ 0 := by
    unfold double_exponent
    have habs : |(n : ℚ)| = ((n : Nat) : ℚ) := abs_of_nonneg (Nat.cast_nonneg n)
    rw [habs, Int.log_natCast]
    have hlog : Nat.log 2 n < 53 := by
      rcases Nat.eq_zero_or_pos n with h0 | hpos
      · rw [h0]; simp
      · exact Nat.log_lt_of_lt_pow (Nat.pos_iff_ne_zero.mp hpos) h
    omega
  obtain ⟨k, hk⟩ := Int.exists_eq_neg_ofNat he
  unfold to_double
  rw [hk, zpow_neg, zpow_natCast, div_inv_eq_mul]
  have hcast : (n : ℚ) * (2 : ℚ) ^ k = (((n * 2 ^ k : Nat) : Int) : ℚ) := by push_cast; ring
  rw [hcast, round_half_even_intCast]
  push_cast
  have hpos : (2 : ℚ) ^ k ≠ 0 := pow_ne_zero k (by norm_num)
  field_simp

theorem grid_get_transition_low (g : Grid) (p : ℚ) (h0 : 0 < p) (h100 : p ≤ 100)
    (x y : Int) :
    grid_get (transition g p) x y =
      if 0 ≤ x ∧ x < grid_width g ∧ 0 ≤ y ∧ y < grid_height g
          ∧ (y : ℚ) < stage0_bound g p then true
      else grid_get g x y := by
  unfold transition
  rw [if_pos ⟨h0, h100⟩, grid_get_loop0]
  by_cases hc : 0 ≤ x ∧ x < grid_width g ∧ 0 ≤ y ∧ y < grid_height g
      ∧ (y : ℚ) < stage0_bound g p
  · rw [if_pos hc, if_pos ⟨hc.1, hc.2.1, hc.2.2.1, hc.2.2.1, hc.2.2.2.1, hc.2.2.2.2⟩]
  · rw [if_neg hc, if_neg]
    rintro ⟨h1, h2, h3, -, h5, h6⟩
    exact hc ⟨h1, h2, h3, h5, h6⟩

theorem transition_size (g : Grid) (p : ℚ) :
    grid_width (transition g p) = grid_width g ∧ grid_height (transition g p) = grid_height g := by
  unfold transition
  split
  · exact ⟨grid_width_loop0 _ _ _, grid_height_loop0 _ _ _⟩
  · split
    · exact ⟨grid_width_loop1 _ _, grid_height_loop1 _ _⟩
    · exact ⟨rfl, rfl⟩

theorem stage1_start_nonneg (g : Grid) (p : ℚ) (h100 : 100 < p) : 0 ≤ stage1_start g p := by
  have hh : (0 : ℚ) ≤ (grid_height g : ℚ) := by
    unfold grid_height; exact_mod_cast Nat.zero_le _
  have h1 : 0 ≤ to_double (p - 100) := to_double_nonneg _ (by linarith)
  have h2 : 0 ≤ to_double (to_double (p - 100) / 100) :=
    to_double_nonneg _ (div_nonneg h1 (by norm_num))
  have h3 : 0 ≤ to_double ((grid_height g : ℚ) * to_double (to_double (p - 100) / 100)) :=
    to_double_nonneg _ (mul_nonneg hh h2)
  unfold stage1_start truncToInt
  rw [if_pos h3]
  exact Int.floor_nonneg.mpr h3

theorem grid_get_transition_high (g : Grid) (p : ℚ) (h100 : 100 < p) (h200 : p ≤ 200)
    (x y : Int) :
    grid_get (transition g p) x y =
      if 0 ≤ x ∧ x < grid_width g ∧ stage1_start g p ≤ y ∧ y < grid_height g then true
      else grid_get g x y := by
  unfold transition
  have hn : ¬ (0 < p ∧ p ≤ 100) := fun h => absurd h.2 (not_le.mpr h100)
  rw [if_neg hn, if_pos ⟨h100, h200⟩, grid_get_loop1]
  have ht := stage1_start_nonneg g p h100
  by_cases hc : 0 ≤ x ∧ x < grid_width g ∧ stage1_start g p ≤ y ∧ y < grid_height g
  · rw [if_pos hc, if_pos ⟨hc.1, hc.2.1, hc.2.2.1, by omega, hc.2.2.2⟩]
  · rw [if_neg hc, if_neg]
    rintro ⟨h1, h2, h3, -, h5⟩
    exact hc ⟨h1, h2, h3, h5⟩

theorem stage1_start_200 (g : Grid) (hint : g.height < 2 ^ 31) :
    stage1_start g 200 = grid_height g := by
  have h1 : to_double ((200 : ℚ) - 100) = 100 := by decide!
  have h2 : to_double ((100 : ℚ) / 100) = 1 := by decide!
  have h3 : to_double ((g.height : Nat) : ℚ) = g.height :=
    to_double_natCast g.height (lt_trans hint (by decide))
  have hcast : ((grid_height g : Int) : ℚ) = ((g.height : Nat) : ℚ) := by
    unfold grid_height; push_cast; rfl
  unfold stage1_start
  rw [h1, h2, mul_one, hcast, h3]
  unfold truncToInt grid_height
  rw [if_pos (Nat.cast_nonneg _)]
  exact_mod_cast Int.floor_natCast (g.height)

/-- C3, as stated, fails: on the all-false 10x20 grid at percent 1.5 the truncation of
`20 * 1.5 / 100 = 0.3` is `0`, so the claim leaves row 0 unchanged, yet `transition` sets
cell `(0, 0)` because the loop test `0 < 0.3` is a comparison of doubles. -/
theorem transition_truncation_counterexample :
    (0 : ℚ) < 3 / 2 ∧ (3 / 2 : ℚ) ≤ 100
    ∧ truncToInt ((grid_height (const_grid 10 20 false) : ℚ) * (3 / 2) / 100) = 0
    ∧ grid_get (const_grid 10 20 false) 0 0 = false
    ∧ grid_get (transition (const_grid 10 20 false) (3 / 2)) 0 0 = true := by
  refine ⟨by norm_num, by norm_num, by decide!, by decide!, ?_⟩
  rw [grid_get_transition_low _ _ (by norm_num) (by norm_num)]
  rw [if_pos]
  refine ⟨le_refl _, by decide!, le_refl _, by decide!, by decide!⟩

/-- C3 (amended): for `0 < p ≤ 100`, `transition` keeps the grid size, forces true exactly the
in-bounds cells of the rows `y` with `0 ≤ y < h` and `y < ⌈B⌉`, where `B` is the `double`
value of `(double)h * ((double)p / 100.)` (quotient and product each rounded to nearest), a
comparison of `y` with `B` itself and not with its truncation, and leaves every other cell
as it was. -/
theorem transition_stage0_rows (g : Grid) (p : ℚ) (h0 : 0 < p) (h100 : p ≤ 100) :
    grid_width (transition g p) = grid_width g
    ∧ grid_height (transition g p) = grid_height g
    ∧ ∀ x y : Int, grid_get (transition g p) x y =
        if 0 ≤ x ∧ x < grid_width g ∧ 0 ≤ y ∧ y < grid_height g
            ∧ y < ⌈to_double ((grid_height g : ℚ) * to_double (p / 100))⌉ then true
        else grid_get g x y := by
  refine ⟨(transition_size g p).1, (transition_size g p).2, ?_⟩
  intro x y
  rw [grid_get_transition_low g p h0 h100]
  simp only [Int.lt_ceil, stage0_bound]

/-- C3 witness: height 20 at percent 50 gives the bound `20 * 0.5 = 10`, so rows 0-9 are
filled and rows 10-19 are unchanged; height 100 at percent 7 gives a `double` product just
above 7, so 8 rows are filled (`0.1` rounds to the binary64 `3602879701896397 / 2 ^ 55`). -/
theorem transition_stage0_rows_witness :
    (0 : ℚ) < 50 ∧ (50 : ℚ) ≤ 100
    ∧ to_double (1 / 10) = 3602879701896397 / 2 ^ 55
    ∧ ⌈to_double ((grid_height (const_grid 10 20 false) : ℚ) * to_double (50 / 100))⌉ = 10
    ∧ ⌈to_double ((grid_height (const_grid 1 100 false) : ℚ) * to_double (7 / 100))⌉ = 8
    ∧ ∀ x y : Int, grid_get (transition (const_grid 10 20 false) 50) x y =
        if 0 ≤ x ∧ x < grid_width (const_grid 10 20 false) ∧ 0 ≤ y
            ∧ y < grid_height (const_grid 10 20 false)
            ∧ y < ⌈to_double ((grid_height (const_grid 10 20 false) : ℚ)
                    * to_double (50 / 100))⌉ then true
        else grid_get (const_grid 10 20 false) x y :=
  ⟨by norm_num, by norm_num, by decide!, by decide!, by decide!,
    (transition_stage0_rows (const_grid 10 20 false) 50 (by norm_num) (by norm_num)).2.2⟩

/-- C4, as stated, fails: on the all-false grid of height 100 at percent 129 the truncation
of the exact `100 * 29 / 100` is 29, so the claim leaves row 28 unchanged, yet the `double`
product `100 * (29 / 100.)` is just below 29, its conversion to `int` is 28, and
`transition` sets cell `(0, 28)`. -/
theorem transition_rounding_counterexample :
    (100 : ℚ) < 129 ∧ (129 : ℚ) ≤ 200
    ∧ truncToInt ((grid_height (const_grid 1 100 false) : ℚ) * (129 - 100) / 100) = 29
    ∧ grid_get (const_grid 1 100 false) 0 28 = false
    ∧ grid_get (transition (const_grid 1 100 false) 129) 0 28 = true := by
  refine ⟨by norm_num, by norm_num, by decide!, by decide!, ?_⟩
  rw [grid_get_transition_high _ _ (by norm_num) (by norm_num)]
  rw [if_pos]
  refine ⟨le_refl _, by decide!, by decide!, by decide!⟩

/-- C4 (amended): for `100 < p ≤ 200`, with `t` the `int` conversion of the `double` value of
`(double)h * ((double)(p - 100) / 100.)` (difference, quotient and product each rounded to
nearest; `t ≥ 0`), `transition` keeps the grid size, makes every in-bounds cell of the rows
`t ≤ y < h` true, leaves every cell of the rows `y < t` as it was, and at `p = 200`, for a
height that fits an `int`, returns the grid unchanged. -/
theorem transition_stage1_rows (g : Grid) (p : ℚ) (h100 : 100 < p) (h200 : p ≤ 200) :
    grid_width (transition g p) = grid_width g
    ∧ grid_height (transition g p) = grid_height g
    ∧ 0 ≤ truncToInt
        (to_double ((grid_height g : ℚ) * to_double (to_double (p - 100) / 100)))
    ∧ (∀ x y : Int, 0 ≤ x → x < grid_width g →
        truncToInt (to_double ((grid_height g : ℚ) * to_double (to_double (p - 100) / 100)))
          ≤ y →
        y < grid_height g →
        grid_get (transition g p) x y = true)
    ∧ (∀ x y : Int,
        y < truncToInt
          (to_double ((grid_height g : ℚ) * to_double (to_double (p - 100) / 100))) →
        grid_get (transition g p) x y = grid_get g x y)
    ∧ (p = 200 → g.height < 2 ^ 31 → transition g p = g) := by
  have hs : truncToInt
      (to_double ((grid_height g : ℚ) * to_double (to_double (p - 100) / 100)))
      = stage1_start g p := rfl
  rw [hs]
  refine ⟨(transition_size g p).1, (transition_size g p).2, stage1_start_nonneg g p h100,
    ?_, ?_, ?_⟩
  · intro x y hx0 hxw hty hyh
    rw [grid_get_transition_high g p h100 h200, if_pos ⟨hx0, hxw, hty, hyh⟩]
  · intro x y hy
    rw [grid_get_transition_high g p h100 h200, if_neg]
    rintro ⟨-, -, h3, -⟩
    omega
  · intro hp hint
    subst hp
    unfold transition
    rw [if_neg (by norm_num), if_pos (by norm_num), stage1_start_200 g hint,
      transition_loop1, if_neg (lt_irrefl _)]

/-- C4 witness: height 20 at percent 150 gives the start row `20 * 0.5 = 10`: rows 10-19
become true and rows 0-9 are unchanged; height 100 at percent 129 gives start row 28 and at
percent 158 start row 57. -/
theorem transition_stage1_rows_witness :
    (100 : ℚ) < 150 ∧ (150 : ℚ) ≤ 200
    ∧ truncToInt (to_double ((grid_height (const_grid 10 20 false) : ℚ)
        * to_double (to_double (150 - 100) / 100))) = 10
    ∧ truncToInt (to_double ((grid_height (const_grid 1 100 false) : ℚ)
        * to_double (to_double (129 - 100) / 100))) = 28
    ∧ truncToInt (to_double ((grid_height (const_grid 1 100 false) : ℚ)
        * to_double (to_double (158 - 100) / 100))) = 57
    ∧ (∀ x y : Int, 0 ≤ x → x < grid_width (const_grid 10 20 false) →
        truncToInt (to_double ((grid_height (const_grid 10 20 false) : ℚ)
          * to_double (to_double (150 - 100) / 100))) ≤ y →
        y < grid_height (const_grid 10 20 false) →
        grid_get (transition (const_grid 10 20 false) 150) x y = true)
    ∧ (∀ x y : Int,
        y < truncToInt (to_double ((grid_height (const_grid 10 20 false) : ℚ)
          * to_double (to_double (150 - 100) / 100))) →
        grid_get (transition (const_grid 10 20 false) 150) x y
          = grid_get (const_grid 10 20 false) x y) :=
  ⟨by norm_num, by norm_num, by decide!, by decide!, by decide!,
    (transition_stage1_rows (const_grid 10 20 false) 150 (by norm_num) (by norm_num)).2.2.2.1,
    (transition_stage1_rows (const_grid 10 20 false) 150 (by norm_num) (by norm_num)).2.2.2.2.1⟩

/-! ## Glyph compositor -/

theorem render_column_eq (g : Grid) (i j : Nat) :
    render_column g i j =
      (List.range ((g.height - j + 1) / 2)).flatMap (fun b => render_block g i (j + 2 * b)) := by
  induction j using render_column.induct g i with
  | case1 j hj ih =>
    have hj1 : j < g.height := by unfold grid_height at hj; omega
    have hn : (g.height - j + 1) / 2 = (g.height - (j + 2) + 1) / 2 + 1 := by omega
    rw [render_column, if_pos hj, ih, hn, List.range_succ_eq_map, List.flatMap_cons,
      List.flatMap_map]
    congr 1
    apply List.flatMap_congr
    intro b _
    have he : ∀ n b : Nat, n + 2 + 2 * b = n + 2 * b.succ := by intro n b; omega
    rw [he]
  | case2 j hj =>
    have hj1 : ¬ j < g.height := by unfold grid_height at hj; omega
    have hn : (g.height - j + 1) / 2 = 0 := by omega
    rw [render_column, if_neg hj, hn]
    rfl

theorem render_columns_eq (g : Grid) (i : Nat) :
    render_columns g i =
      (List.range ((g.width - i + 1) / 2)).flatMap (fun a => render_column g (i + 2 * a) 0) := by
  induction i using render_columns.induct g with
  | case1 i hi ih =>
    have hi1 : i < g.width := by unfold grid_width at hi; omega
    have hn : (g.width - i + 1) / 2 = (g.width - (i + 2) + 1) / 2 + 1 := by omega
    rw [render_columns, if_pos hi, ih, hn, List.range_succ_eq_map, List.flatMap_cons,
      List.flatMap_map]
    congr 1
    apply List.flatMap_congr
    intro a _
    have he : ∀ n b : Nat, n + 2 + 2 * b = n + 2 * b.succ := by intro n b; omega
    rw [he]
  | case2 i hi =>
    have hi1 : ¬ i < g.width := by unfold grid_width at hi; omega
    have hn : (g.width - i + 1) / 2 = 0 := by omega
    rw [render_columns, if_neg hi, hn]
    rfl

theorem render_cells_eq (g : Grid) :
    render_cells g =
      (List.range ((g.width + 1) / 2)).flatMap (fun a =>
        (List.range ((g.height + 1) / 2)).flatMap (fun b => render_block g (2 * a) (2 * b))) := by
  unfold render_cells
  rw [render_columns_eq]
  simp only [Nat.sub_zero, Nat.zero_add]
  apply List.flatMap_congr
  intro a _
  rw [render_column_eq]
  simp only [Nat.sub_zero, Nat.zero_add]

theorem sprite_num_eq_two_digit (a b c d : Bool) :
    sprite_num (1 * a.toNat + 2 * b.toNat + 4 * c.toNat + 8 * d.toNat)
      = two_digit (a.toNat + 2 * b.toNat + 4 * c.toNat + 8 * d.toNat) := by
  cases a <;> cases b <;> cases c <;> cases d <;> decide!

theorem render_block_full (g : Grid) (i j : Nat)
    (hi : (i : Int) + 2 ≤ grid_width g) (hj : (j : Int) + 2 ≤ grid_height g) :
    render_block g i j = [composite_call g i j] := by
  unfold render_block composite_call
  simp only [if_pos (And.intro hi hj)]
  rw [sprite_num_eq_two_digit, mul_comm cell_width 2, mul_comm cell_height 2]

theorem composite_name_ne (s : String) :
    "spr_cells_" ++ s ≠ "spr_cell_selected" ∧ "spr_cells_" ++ s ≠ "spr_cell_unselected" := by
  constructor <;> intro h <;> have h1 := congrArg String.data h <;>
    simp [String.data_append] at h1

theorem length_flatMap_range_const {α : Type} (f : Nat → List α) (c : Nat) (n : Nat)
    (h : ∀ a, a < n → (f a).length = c) : ((List.range n).flatMap f).length = n * c := by
  induction n with
  | zero => simp
  | succ n ih =>
    rw [List.range_succ, List.flatMap_append, List.length_append,
      ih (fun a ha => h a (Nat.lt_succ_of_lt ha))]
    simp only [List.flatMap_cons, List.flatMap_nil, List.append_nil]
    rw [h n (Nat.lt_succ_self n)]
    ring

/-- C5: on a grid of even width `W` and even height `H` the cell loop of `renderGame` issues
exactly the calls `composite_call g (2a) (2b)` for `a < W/2` (outer) and `b < H/2` (inner):
`(W/2) * (H/2)` calls, each 2x2 cells large at its block's position and named
`spr_cells_NN` with `NN` the two digits (tens, units) of
`cell(i,j) + 2 cell(i+1,j) + 4 cell(i,j+1) + 8 cell(i+1,j+1)`; none is a single-cell call. -/
theorem render_cells_even (g : Grid) (hw : g.width % 2 = 0) (hh : g.height % 2 = 0) :
    render_cells g =
      (List.range (g.width / 2)).flatMap (fun a =>
        (List.range (g.height / 2)).map (fun b => composite_call g (2 * a) (2 * b)))
    ∧ (render_cells g).length = (g.width / 2) * (g.height / 2)
    ∧ ∀ c ∈ render_cells g,
        c.sprite_name ≠ "spr_cell_selected" ∧ c.sprite_name ≠ "spr_cell_unselected"
        ∧ c.width = 2 * cell_width ∧ c.height = 2 * cell_height := by
  have hW : (g.width + 1) / 2 = g.width / 2 := by omega
  have hH : (g.height + 1) / 2 = g.height / 2 := by omega
  have heq : render_cells g =
      (List.range (g.width / 2)).flatMap (fun a =>
        (List.range (g.height / 2)).map (fun b => composite_call g (2 * a) (2 * b))) := by
    rw [render_cells_eq, hW, hH]
    apply List.flatMap_congr
    intro a ha
    rw [List.mem_range] at ha
    rw [← List.flatMap_pure_eq_map]
    apply List.flatMap_congr
    intro b hb
    rw [List.mem_range] at hb
    have h1 : ((2 * a : Nat) : Int) + 2 ≤ grid_width g := by unfold grid_width; omega
    have h2 : ((2 * b : Nat) : Int) + 2 ≤ grid_height g := by unfold grid_height; omega
    rw [render_block_full g _ _ h1 h2]
    rfl
  refine ⟨heq, ?_, ?_⟩
  · rw [heq]
    apply length_flatMap_range_const
    intro a _
    rw [List.length_map, List.length_range]
  · intro c hc
    rw [heq] at hc
    simp only [List.mem_flatMap, List.mem_map, List.mem_range] at hc
    obtain ⟨a, _, b, _, rfl⟩ := hc
    exact ⟨(composite_name_ne _).1, (composite_name_ne _).2, rfl, rfl⟩

/-- C5 witness: the 4x4 all-true grid gets exactly four calls, each the composite sprite
with index 15; the names of the sixteen indices are `00` to `15`; the 4x4 grid whose true cells are the top-left cell of the first block, the
top-right cell of the second, the bottom-left cell of the third and the bottom-right cell
of the fourth gets the zero-padded names 01, 02, 04 and 08. -/
theorem render_cells_even_witness :
    (const_grid 4 4 true).width % 2 = 0 ∧ (const_grid 4 4 true).height % 2 = 0
    ∧ (List.range 16).map two_digit =
        ["00", "01", "02", "03", "04", "05", "06", "07", "08", "09", "10", "11", "12", "13",
         "14", "15"]
    ∧ render_cells (const_grid 4 4 true) =
        [⟨-62, -62, 62, 62, "spr_cells_15"⟩, ⟨-62, 0, 62, 62, "spr_cells_15"⟩,
         ⟨0, -62, 62, 62, "spr_cells_15"⟩, ⟨0, 0, 62, 62, "spr_cells_15"⟩]
    ∧ (List.range ((lit_grid 4 4 [(0, 0), (1, 2), (2, 1), (3, 3)]).width / 2)).flatMap
        (fun a => (List.range ((lit_grid 4 4 [(0, 0), (1, 2), (2, 1), (3, 3)]).height / 2)).map
          (fun b => composite_call (lit_grid 4 4 [(0, 0), (1, 2), (2, 1), (3, 3)])
            (2 * a) (2 * b))) =
        [⟨-62, -62, 62, 62, "spr_cells_01"⟩, ⟨-62, 0, 62, 62, "spr_cells_02"⟩,
         ⟨0, -62, 62, 62, "spr_cells_04"⟩, ⟨0, 0, 62, 62, "spr_cells_08"⟩]
    ∧ render_cells (lit_grid 4 4 [(0, 0), (1, 2), (2, 1), (3, 3)]) =
        [⟨-62, -62, 62, 62, "spr_cells_01"⟩, ⟨-62, 0, 62, 62, "spr_cells_02"⟩,
         ⟨0, -62, 62, 62, "spr_cells_04"⟩, ⟨0, 0, 62, 62, "spr_cells_08"⟩] :=
  ⟨by decide, by decide, by decide!,
    (render_cells_even (const_grid 4 4 true) (by decide) (by decide)).1.trans (by decide!),
    by decide!,
    (render_cells_even (lit_grid 4 4 [(0, 0), (1, 2), (2, 1), (3, 3)])
      (by decide) (by decide)).1.trans (by decide!)⟩

theorem covers_composite (g : Grid) (i j : Nat) (cx cy : Int) :
    covers g (composite_call g i j) cx cy
      = decide ((i : Int) ≤ cx ∧ cx ≤ i + 1 ∧ (j : Int) ≤ cy ∧ cy ≤ j + 1) := by
  simp only [covers, composite_call, cell_width, cell_height]
  apply decide_eq_decide.mpr
  constructor <;> intro h <;> refine ⟨?_, ?_, ?_, ?_⟩ <;> omega

theorem covers_single (g : Grid) (u v : Int) (lit : Bool) (cx cy : Int) :
    covers g (draw_single (grid_offset_x g + u * cell_width)
      (grid_offset_y g + v * cell_height) lit) cx cy = decide (cx = u ∧ cy = v) := by
  cases lit <;> simp only [covers, draw_single, cell_width, cell_height, if_true, if_false,
      Bool.false_eq_true] <;>
    apply decide_eq_decide.mpr <;> constructor <;> intro h <;>
    refine ⟨?_, ?_⟩ <;> omega

theorem render_block_edge (g : Grid) (i j : Nat)
    (h : ¬ ((i : Int) + 2 ≤ grid_width g ∧ (j : Int) + 2 ≤ grid_height g)) :
    render_block g i j =
      (if (i : Int) < grid_width g ∧ (j : Int) < grid_height g then
        [draw_single (grid_offset_x g + (i : Int) * cell_width)
          (grid_offset_y g + (j : Int) * cell_height) (grid_get g i j)] else [])
      ++ (if (i : Int) + 1 < grid_width g ∧ (j : Int) < grid_height g then
        [draw_single (grid_offset_x g + ((i : Int) + 1) * cell_width)
          (grid_offset_y g + (j : Int) * cell_height) (grid_get g (i + 1) j)] else [])
      ++ (if (i : Int) < grid_width g ∧ (j : Int) + 1 < grid_height g then
        [draw_single (grid_offset_x g + (i : Int) * cell_width)
          (grid_offset_y g + ((j : Int) + 1) * cell_height) (grid_get g i (j + 1))] else []) := by
  unfold render_block
  simp only [if_neg h]
  have e1 : grid_offset_x g + (i : Int) * cell_width + cell_width
      = grid_offset_x g + ((i : Int) + 1) * cell_width := by ring
  have e2 : grid_offset_y g + (j : Int) * cell_height + cell_height
      = grid_offset_y g + ((j : Int) + 1) * cell_height := by ring
  rw [e1, e2]

theorem count_render_block (g : Grid) (i j : Nat) (cx cy : Int) :
    List.countP (fun c => covers g c cx cy) (render_block g i j) =
      if (i : Int) ≤ cx ∧ cx ≤ i + 1 ∧ (j : Int) ≤ cy ∧ cy ≤ j + 1
          ∧ cx < grid_width g ∧ cy < grid_height g then 1 else 0 := by
  by_cases hfull : (i : Int) + 2 ≤ grid_width g ∧ (j : Int) + 2 ≤ grid_height g
  · rw [render_block_full g i j hfull.1 hfull.2]
    simp only [List.countP_cons, List.countP_nil, covers_composite, Nat.zero_add,
      decide_eq_true_eq]
    by_cases hc : (i : Int) ≤ cx ∧ cx ≤ i + 1 ∧ (j : Int) ≤ cy ∧ cy ≤ j + 1
    · rw [if_pos hc, if_pos ⟨hc.1, hc.2.1, hc.2.2.1, hc.2.2.2, by omega, by omega⟩]
    · rw [if_neg hc, if_neg]
      rintro ⟨h1, h2, h3, h4, -⟩
      exact hc ⟨h1, h2, h3, h4⟩
  · rw [render_block_edge g i j hfull]
    simp only [List.countP_append]
    have hsplit : ∀ (P : Prop) [Decidable P] (c : DrawCall),
        List.countP (fun c => covers g c cx cy) (if P then [c] else [])
          = if P ∧ covers g c cx cy = true then 1 else 0 := by
      intro P _ c
      by_cases hP : P
      · by_cases hc : covers g c cx cy = true
        · simp [hP, hc]
        · simp [hP, hc]
      · simp [hP]
    simp only [hsplit, covers_single, decide_eq_true_eq]
    split_ifs <;> omega

theorem countP_flatMap_range_single {α : Type} (p : α → Bool) (f : Nat → List α)
    (k c : Nat) (h : ∀ b, List.countP p (f b) = if b = k then c else 0) (n : Nat) :
    List.countP p ((List.range n).flatMap f) = if k < n then c else 0 := by
  induction n with
  | zero => simp
  | succ n ih =>
    rw [List.range_succ, List.flatMap_append, List.countP_append, ih]
    simp only [List.flatMap_cons, List.flatMap_nil, List.append_nil]
    rw [h n]
    by_cases h1 : k < n
    · rw [if_pos h1, if_neg (by omega), if_pos (by omega), Nat.add_zero]
    · by_cases h2 : n = k
      · rw [if_neg h1, if_pos h2, if_pos (by omega), Nat.zero_add]
      · rw [if_neg h1, if_neg h2, if_neg (by omega)]

theorem count_render_cells (g : Grid) (cx cy : Int) :
    List.countP (fun c => covers g c cx cy) (render_cells g) =
      if 0 ≤ cx ∧ cx < grid_width g ∧ 0 ≤ cy ∧ cy < grid_height g then 1 else 0 := by
  rw [render_cells_eq]
  have inner : ∀ a : Nat,
      List.countP (fun c => covers g c cx cy)
        ((List.range ((g.height + 1) / 2)).flatMap (fun b => render_block g (2 * a) (2 * b)))
      = if a = cx.toNat / 2 then
          (if 0 ≤ cx ∧ cx < grid_width g ∧ 0 ≤ cy ∧ cy < grid_height g then 1 else 0)
        else 0 := by
    intro a
    rw [countP_flatMap_range_single _ _ (cy.toNat / 2)
      (if ((2 * a : Nat) : Int) ≤ cx ∧ cx ≤ (2 * a : Nat) + 1 ∧ 0 ≤ cy
          ∧ cx < grid_width g ∧ cy < grid_height g then 1 else 0)]
    · unfold grid_width grid_height
      split_ifs <;> omega
    · intro b
      rw [count_render_block]
      unfold grid_width grid_height
      split_ifs <;> omega
  rw [countP_flatMap_range_single _ _ (cx.toNat / 2)
    (if 0 ≤ cx ∧ cx < grid_width g ∧ 0 ≤ cy ∧ cy < grid_height g then 1 else 0) inner]
  unfold grid_width grid_height
  split_ifs <;> omega

theorem mem_render_cells (g : Grid) (c : DrawCall) :
    c ∈ render_cells g ↔
      ∃ a b : Nat, 2 * a < g.width ∧ 2 * b < g.height ∧ c ∈ render_block g (2 * a) (2 * b) := by
  rw [render_cells_eq]
  simp only [List.mem_flatMap, List.mem_range]
  constructor
  · rintro ⟨a, ha, b, hb, hc⟩
    exact ⟨a, b, by omega, by omega, hc⟩
  · rintro ⟨a, b, ha, hb, hc⟩
    exact ⟨a, by omega, b, by omega, hc⟩

theorem draw_single_eq (g : Grid) (cx cy : Nat) :
    draw_single (grid_offset_x g + (cx : Int) * cell_width)
      (grid_offset_y g + (cy : Int) * cell_height) (grid_get g cx cy) = single_call g cx cy := by
  unfold draw_single single_call
  split <;> rfl

theorem mem_render_block_edge (g : Grid) (i j : Nat)
    (h : ¬ ((i : Int) + 2 ≤ grid_width g ∧ (j : Int) + 2 ≤ grid_height g)) (c : DrawCall) :
    c ∈ render_block g i j ↔
      ((i < g.width ∧ j < g.height) ∧ c = single_call g i j)
      ∨ ((i + 1 < g.width ∧ j < g.height) ∧ c = single_call g (i + 1) j)
      ∨ ((i < g.width ∧ j + 1 < g.height) ∧ c = single_call g i (j + 1)) := by
  rw [render_block_edge g i j h]
  have e1 := draw_single_eq g i j
  have e2 := draw_single_eq g (i + 1) j
  have e3 := draw_single_eq g i (j + 1)
  push_cast at e1 e2 e3
  rw [e1, e2, e3]
  have c1 : ((i : Int) < grid_width g ∧ (j : Int) < grid_height g) ↔ (i < g.width ∧ j < g.height) := by
    unfold grid_width grid_height; omega
  have c2 : ((i : Int) + 1 < grid_width g ∧ (j : Int) < grid_height g)
      ↔ (i + 1 < g.width ∧ j < g.height) := by
    unfold grid_width grid_height; omega
  have c3 : ((i : Int) < grid_width g ∧ (j : Int) + 1 < grid_height g)
      ↔ (i < g.width ∧ j + 1 < g.height) := by
    unfold grid_width grid_height; omega
  simp only [c1, c2, c3, List.mem_append]
  have hm : ∀ (P : Prop) [Decidable P] (d : DrawCall),
      c ∈ (if P then [d] else []) ↔ (P ∧ c = d) := by
    intro P _ d
    by_cases hP : P <;> simp [hP]
  rw [hm, hm, hm, or_assoc]

/-- C6: for a grid of any size, every in-bounds cell is covered by exactly one call of the cell
loop of `renderGame` and no out-of-bounds cell by any; every 2x2 block at even `(2a, 2b)` lying
inside the grid has its composite call; every in-bounds cell whose block crosses the right or
bottom edge has its single-cell call (`spr_cell_selected` if the cell is true,
`spr_cell_unselected` otherwise); and there are no other calls. -/
theorem render_cells_cover (g : Grid) :
    (∀ cx cy : Int, List.countP (fun c => covers g c cx cy) (render_cells g) =
        if 0 ≤ cx ∧ cx < grid_width g ∧ 0 ≤ cy ∧ cy < grid_height g then 1 else 0)
    ∧ (∀ a b : Nat, 2 * a + 2 ≤ g.width → 2 * b + 2 ≤ g.height →
        composite_call g (2 * a) (2 * b) ∈ render_cells g)
    ∧ (∀ cx cy : Nat, cx < g.width → cy < g.height →
        (g.width < 2 * (cx / 2) + 2 ∨ g.height < 2 * (cy / 2) + 2) →
        single_call g cx cy ∈ render_cells g)
    ∧ (∀ c ∈ render_cells g,
        (∃ a b : Nat, 2 * a + 2 ≤ g.width ∧ 2 * b + 2 ≤ g.height
          ∧ c = composite_call g (2 * a) (2 * b))
        ∨ (∃ cx cy : Nat, cx < g.width ∧ cy < g.height
          ∧ (g.width < 2 * (cx / 2) + 2 ∨ g.height < 2 * (cy / 2) + 2)
          ∧ c = single_call g cx cy)) := by
  refine ⟨count_render_cells g, ?_, ?_, ?_⟩
  · intro a b ha hb
    rw [mem_render_cells]
    refine ⟨a, b, by omega, by omega, ?_⟩
    rw [render_block_full g _ _ (by unfold grid_width; omega) (by unfold grid_height; omega)]
    exact List.mem_singleton.mpr rfl
  · intro cx cy hx hy hcross
    rw [mem_render_cells]
    refine ⟨cx / 2, cy / 2, by omega, by omega, ?_⟩
    rw [mem_render_block_edge g _ _ (by unfold grid_width grid_height; omega)]
    have hx2 : cx = 2 * (cx / 2) ∨ cx = 2 * (cx / 2) + 1 := by omega
    have hy2 : cy = 2 * (cy / 2) ∨ cy = 2 * (cy / 2) + 1 := by omega
    rcases hx2 with hx2 | hx2 <;> rcases hy2 with hy2 | hy2
    · left; rw [← hx2, ← hy2]; exact ⟨⟨hx, hy⟩, rfl⟩
    · right; right; rw [← hx2, ← hy2]; exact ⟨⟨hx, hy⟩, rfl⟩
    · right; left; rw [← hx2, ← hy2]; exact ⟨⟨hx, hy⟩, rfl⟩
    · omega
  · intro c hc
    rw [mem_render_cells] at hc
    obtain ⟨a, b, ha, hb, hc⟩ := hc
    by_cases hfull : ((2 * a : Nat) : Int) + 2 ≤ grid_width g
        ∧ ((2 * b : Nat) : Int) + 2 ≤ grid_height g
    · left
      rw [render_block_full g _ _ hfull.1 hfull.2] at hc
      unfold grid_width grid_height at hfull
      exact ⟨a, b, by omega, by omega, List.mem_singleton.mp hc⟩
    · right
      rw [mem_render_block_edge g _ _ hfull] at hc
      unfold grid_width grid_height at hfull
      rcases hc with ⟨⟨h1, h2⟩, rfl⟩ | ⟨⟨h1, h2⟩, rfl⟩ | ⟨⟨h1, h2⟩, rfl⟩
      · exact ⟨2 * a, 2 * b, h1, h2, by omega, rfl⟩
      · exact ⟨2 * a + 1, 2 * b, h1, h2, by omega, rfl⟩
      · exact ⟨2 * a, 2 * b + 1, h1, h2, by omega, rfl⟩

/-- C6 witness: the 3x3 all-true grid gets one composite call for the top-left 2x2 block and
five single-cell calls, for the cells of the bottom row and the right column. -/
theorem render_cells_cover_witness :
    render_cells (const_grid 3 3 true) =
      [⟨-46, -46, 62, 62, "spr_cells_15"⟩,
       ⟨-46, 16, 31, 31, "spr_cell_selected"⟩, ⟨-15, 16, 31, 31, "spr_cell_selected"⟩,
       ⟨16, -46, 31, 31, "spr_cell_selected"⟩, ⟨16, -15, 31, 31, "spr_cell_selected"⟩,
       ⟨16, 16, 31, 31, "spr_cell_selected"⟩]
    ∧ (∀ cx cy : Int,
        List.countP (fun c => covers (const_grid 3 3 true) c cx cy)
          (render_cells (const_grid 3 3 true)) =
        if 0 ≤ cx ∧ cx < grid_width (const_grid 3 3 true) ∧ 0 ≤ cy
            ∧ cy < grid_height (const_grid 3 3 true) then 1 else 0) :=
  ⟨by decide!, (render_cells_cover (const_grid 3 3 true)).1⟩

theorem setScore_eq (st : State) (n : Int) :
    setScore st n =
      if (n : ℚ) > st.highscore then
        { st with highscore := (n : ℚ), score_display := toString n,
                  highscore_display := toString n }
      else
        { st with score_display := toString n,
                  highscore_display := toString (truncToInt st.highscore) } := by
  unfold setScore setHighScore setScoreString
  by_cases h : (n : ℚ) > st.highscore
  · simp only [if_pos h]
  · simp only [if_neg h]

theorem setScore_score_display (st : State) (n : Int) :
    (setScore st n).score_display = toString n := by
  rw [setScore_eq]
  split <;> rfl

theorem utf8ByteSize_space_append (s : String) :
    (" " ++ s).utf8ByteSize = s.utf8ByteSize + 1 := by
  show String.utf8ByteSize ⟨[' '] ++ s.data⟩ = _
  rw [String.utf8ByteSize_mk, String.utf8Len_append]
  exact Nat.add_comm _ _

theorem pad_score_eq (s : String) (n : Nat) :
    pad_score s n = String.mk (List.replicate (n - s.utf8ByteSize) ' ') ++ s := by
  induction s, n using pad_score.induct with
  | case1 s n h ih =>
    have h2 : n - s.utf8ByteSize = (n - (s.utf8ByteSize + 1)) + 1 := by omega
    rw [pad_score, if_pos h, ih, utf8ByteSize_space_append, h2, List.replicate_succ']
    apply String.ext
    simp [String.data_append]
  | case2 s n h =>
    have h2 : n - s.utf8ByteSize = 0 := by omega
    rw [pad_score, if_neg h, h2]
    apply String.ext
    simp [String.data_append]

theorem utf8ByteSize_spaces (k : Nat) :
    (String.mk (List.replicate k ' ')).utf8ByteSize = k := by
  rw [String.utf8ByteSize_mk]
  induction k with
  | zero => rfl
  | succ k ih =>
    rw [List.replicate_succ, String.utf8Len_cons, ih]
    rfl

/-- C8: `setScore(n)` stores the decimal text of `n` as the score display string, and for
every display string `s` the padding loop of `draw_digital_display` at its width 8 yields
`8 - |s|` spaces followed by `s`, of size exactly 8, when `|s| ≤ 8`, and `s` itself, with
nothing removed, when `|s| > 8` (`|s|` the `size()` of `s`). -/
theorem score_display_format (st : State) (n : Int) :
    (setScore st n).score_display = toString n
    ∧ display_length = 8
    ∧ ∀ s : String,
        (s.utf8ByteSize ≤ 8 →
          pad_score s display_length
            = String.mk (List.replicate (8 - s.utf8ByteSize) ' ') ++ s
          ∧ (pad_score s display_length).utf8ByteSize = 8)
        ∧ (8 < s.utf8ByteSize → pad_score s display_length = s) := by
  refine ⟨setScore_score_display st n, rfl, ?_⟩
  intro s
  have hd : display_length = 8 := rfl
  rw [hd]
  constructor
  · intro hs
    refine ⟨pad_score_eq s 8, ?_⟩
    rw [pad_score_eq]
    show String.utf8ByteSize ⟨(List.replicate (8 - s.utf8ByteSize) ' ') ++ s.data⟩ = 8
    rw [String.utf8ByteSize_mk, String.utf8Len_append]
    have h1 := utf8ByteSize_spaces (8 - s.utf8ByteSize)
    rw [String.utf8ByteSize_mk] at h1
    have h2 : String.utf8Len s.data = s.utf8ByteSize := rfl
    rw [h1, h2]
    omega
  · intro hs
    rw [pad_score, if_neg (by omega)]

/-- C8 witness: `setScore(42)` gives the display string `42`, padded to six spaces followed
by `42`; a 9-character string is left as it is. -/
theorem score_display_format_witness :
    (setScore initial_state 42).score_display = "42"
    ∧ ("42".utf8ByteSize ≤ 8 ∧ pad_score "42" display_length = "      42")
    ∧ (8 < "123456789".utf8ByteSize ∧ pad_score "123456789" display_length = "123456789") :=
  ⟨(score_display_format initial_state 42).1.trans (by decide),
    ⟨by decide,
      (((score_display_format initial_state 42).2.2 "42").1 (by decide)).1.trans
        (by decide!)⟩,
    ⟨by decide, ((score_display_format initial_state 42).2.2 "123456789").2 (by decide)⟩⟩

theorem setScore_highscore (st : State) (m n : Int) (h : st.highscore = (m : ℚ)) :
    (setScore st n).highscore = ((max m n : Int) : ℚ)
    ∧ (setScore st n).highscore_display = toString (max m n) := by
  have htr : truncToInt (m : ℚ) = m := by
    unfold truncToInt
    split <;> simp
  rw [setScore_eq, h, htr]
  by_cases hlt : (n : ℚ) > (m : ℚ)
  · have h1 : m < n := by exact_mod_cast hlt
    rw [if_pos hlt, max_eq_right (le_of_lt h1)]
    exact ⟨rfl, rfl⟩
  · have h1 : n ≤ m := by exact_mod_cast not_lt.mp hlt
    rw [if_neg hlt, max_eq_left h1]
    exact ⟨rfl, rfl⟩

theorem set_scores_highscore (scores : List Int) (st : State) (m : Int)
    (h : st.highscore = (m : ℚ)) :
    (set_scores st scores).highscore = ((scores.foldl max m : Int) : ℚ) := by
  induction scores generalizing st m with
  | nil => exact h
  | cons n rest ih =>
    unfold set_scores
    rw [List.foldl_cons, List.foldl_cons]
    exact ih (setScore st n) (max m n) (setScore_highscore st m n h).1

theorem le_foldl_max (scores : List Int) (m : Int) :
    m ≤ scores.foldl max m ∧ ∀ n ∈ scores, n ≤ scores.foldl max m := by
  induction scores generalizing m with
  | nil => exact ⟨le_refl _, fun n hn => absurd hn (List.not_mem_nil n)⟩
  | cons a rest ih =>
    rw [List.foldl_cons]
    refine ⟨le_trans (le_max_left m a) (ih (max m a)).1, ?_⟩
    intro n hn
    rcases List.mem_cons.mp hn with rfl | hn
    · exact le_trans (le_max_right m n) (ih (max m n)).1
    · exact (ih (max m a)).2 n hn

/-- C9: starting from the constructor's state (`highscore = 0`), after any list of integer
`setScore` calls followed by one more call `setScore(n)`, the stored highscore has not
decreased by that call, it equals the maximum of 0 and all scores passed so far, that
maximum is at least every score passed so far, and `highscore_display` is its decimal
text. -/
theorem highscore_never_decreases (scores : List Int) (n : Int) :
    (set_scores initial_state scores).highscore
      ≤ (setScore (set_scores initial_state scores) n).highscore
    ∧ (setScore (set_scores initial_state scores) n).highscore
        = (((scores ++ [n]).foldl max 0 : Int) : ℚ)
    ∧ (setScore (set_scores initial_state scores) n).highscore_display
        = toString ((scores ++ [n]).foldl max 0)
    ∧ (0 ≤ (scores ++ [n]).foldl max 0 ∧ ∀ m ∈ scores ++ [n], m ≤ (scores ++ [n]).foldl max 0) := by
  have h0 : initial_state.highscore = ((0 : Int) : ℚ) := by
    show (0 : ℚ) = ((0 : Int) : ℚ)
    norm_num
  have hprev := set_scores_highscore scores initial_state 0 h0
  have hnext := setScore_highscore (set_scores initial_state scores) (scores.foldl max 0) n hprev
  have hfold : (scores ++ [n]).foldl max 0 = max (scores.foldl max 0) n := by
    rw [List.foldl_append]; rfl
  rw [hfold]
  refine ⟨?_, hnext.1, hnext.2, ?_⟩
  · rw [hnext.1, hprev]
    exact_mod_cast le_max_left _ _
  · rw [← hfold]
    exact le_foldl_max (scores ++ [n]) 0

/-- C9 witness: scores 5, 9, then 3: the highscore display reads 9 after the last call. -/
theorem highscore_never_decreases_witness :
    (setScore (set_scores initial_state [5, 9]) 3).highscore_display = "9"
    ∧ (setScore (set_scores initial_state [5, 9]) 3).score_display = "3" :=
  ⟨(highscore_never_decreases [5, 9] 3).2.2.1.trans (by decide), by decide!⟩

/-! ## Frame tick: the phases of `onFrame` -/

theorem handle_buttons_next_game (s : State) (k : Buttons) :
    (handle_buttons s k).next_game = if k.x then 1 else if k.y then 0 else s.next_game := by
  unfold handle_buttons
  cases k.l <;> cases k.y <;> cases k.x <;> cases k.b <;> cases k.a <;> rfl

theorem handle_buttons_fields (s : State) (k : Buttons) :
    (handle_buttons s k).current_game = s.current_game
    ∧ (handle_buttons s k).transition_stage = s.transition_stage
    ∧ (handle_buttons s k).transition_percent = s.transition_percent
    ∧ (handle_buttons s k).game_grid = s.game_grid
    ∧ (handle_buttons s k).objects = s.objects := by
  unfold handle_buttons
  cases k.l <;> cases k.y <;> cases k.x <;> cases k.b <;> cases k.a <;>
    exact ⟨rfl, rfl, rfl, rfl, rfl⟩

theorem handle_buttons_targets (s : State) (k : Buttons) :
    (handle_buttons s k).target_grid_width
        = (if k.a then 20 else if k.b then 10 else s.target_grid_width)
    ∧ (handle_buttons s k).target_grid_height
        = (if k.a then 20 else if k.b then 20 else s.target_grid_height) := by
  unfold handle_buttons
  cases k.l <;> cases k.y <;> cases k.x <;> cases k.b <;> cases k.a <;> exact ⟨rfl, rfl⟩

theorem grid_create_some (w h : Int) (hw : 0 ≤ w) (hh : 0 ≤ h) :
    grid_create w h = some ⟨w.toNat, h.toNat, fun _ _ => false⟩ := by
  unfold grid_create
  rw [if_pos ⟨hw, hh⟩]

theorem resize_width_spec (s : State) (h : 0 ≤ s.target_grid_width) :
    ∃ g, resize_width s = some { s with game_grid := g }
      ∧ grid_height g = grid_height s.game_grid
      ∧ grid_width g =
          (if grid_width s.game_grid < s.target_grid_width then grid_width s.game_grid + 1
           else if grid_width s.game_grid > s.target_grid_width then grid_width s.game_grid - 1
           else grid_width s.game_grid) := by
  have hw0 : 0 ≤ grid_width s.game_grid := by unfold grid_width; omega
  have hh0 : 0 ≤ grid_height s.game_grid := by unfold grid_height; omega
  unfold resize_width
  by_cases h1 : grid_width s.game_grid < s.target_grid_width
  · rw [if_pos h1, grid_create_some _ _ (by omega) hh0]
    refine ⟨_, rfl, ?_, ?_⟩
    · unfold grid_height; simp only; omega
    · rw [if_pos h1]; unfold grid_width; simp only; unfold grid_width at hw0; omega
  · rw [if_neg h1]
    by_cases h2 : grid_width s.game_grid > s.target_grid_width
    · rw [if_pos h2, grid_create_some _ _ (by omega) hh0]
      refine ⟨_, rfl, ?_, ?_⟩
      · unfold grid_height; simp only; omega
      · rw [if_neg h1, if_pos h2]; unfold grid_width; simp only
        unfold grid_width at hw0 h2; omega
    · rw [if_neg h2]
      exact ⟨s.game_grid, rfl, rfl, by rw [if_neg h1, if_neg h2]⟩

theorem resize_height_spec (s : State) (h : 0 ≤ s.target_grid_height) :
    ∃ g, resize_height s = some { s with game_grid := g }
      ∧ grid_width g = grid_width s.game_grid
      ∧ grid_height g =
          (if grid_height s.game_grid < s.target_grid_height then grid_height s.game_grid + 1
           else if grid_height s.game_grid > s.target_grid_height then grid_height s.game_grid - 1
           else grid_height s.game_grid) := by
  have hw0 : 0 ≤ grid_width s.game_grid := by unfold grid_width; omega
  have hh0 : 0 ≤ grid_height s.game_grid := by unfold grid_height; omega
  unfold resize_height
  by_cases h1 : grid_height s.game_grid < s.target_grid_height
  · rw [if_pos h1, grid_create_some _ _ hw0 (by omega)]
    refine ⟨_, rfl, ?_, ?_⟩
    · unfold grid_width; simp only; omega
    · rw [if_pos h1]; unfold grid_height; simp only; unfold grid_height at hh0; omega
  · rw [if_neg h1]
    by_cases h2 : grid_height s.game_grid > s.target_grid_height
    · rw [if_pos h2, grid_create_some _ _ hw0 (by omega)]
      refine ⟨_, rfl, ?_, ?_⟩
      · unfold grid_width; simp only; omega
      · rw [if_neg h1, if_pos h2]; unfold grid_height; simp only
        unfold grid_height at hh0 h2; omega
    · rw [if_neg h2]
      exact ⟨s.game_grid, rfl, rfl, by rw [if_neg h1, if_neg h2]⟩

theorem resize_grid_spec (s : State) (hw : 0 ≤ s.target_grid_width)
    (hh : 0 ≤ s.target_grid_height) :
    ∃ g, resize_grid s = some { s with game_grid := g }
      ∧ grid_width g =
          (if grid_width s.game_grid < s.target_grid_width then grid_width s.game_grid + 1
           else if grid_width s.game_grid > s.target_grid_width then grid_width s.game_grid - 1
           else grid_width s.game_grid)
      ∧ grid_height g =
          (if grid_height s.game_grid < s.target_grid_height then grid_height s.game_grid + 1
           else if grid_height s.game_grid > s.target_grid_height then grid_height s.game_grid - 1
           else grid_height s.game_grid) := by
  obtain ⟨g1, e1, hh1, hw1⟩ := resize_width_spec s hw
  obtain ⟨g2, e2, hw2, hh2⟩ := resize_height_spec { s with game_grid := g1 } hh
  refine ⟨grid_clear g2, ?_, ?_, ?_⟩
  · unfold resize_grid
    rw [e1]
    simp only [Option.bind_eq_bind, Option.some_bind, e2]
    rfl
  · show grid_width g2 = _
    rw [hw2]; exact hw1
  · show grid_height g2 = _
    rw [hh2]
    simp only [hh1]

theorem resize_grid_fields (s r : State) (h : resize_grid s = some r) :
    ∃ g, r = { s with game_grid := g } := by
  unfold resize_grid at h
  simp only [Option.bind_eq_bind, Option.bind_eq_some] at h
  obtain ⟨s1, h1, s2, h2, h3⟩ := h
  have hw : ∃ g, s1 = { s with game_grid := g } := by
    unfold resize_width at h1
    split at h1
    · simp only [Option.map_eq_some'] at h1
      obtain ⟨g, _, rfl⟩ := h1
      exact ⟨g, rfl⟩
    · split at h1
      · simp only [Option.map_eq_some'] at h1
        obtain ⟨g, _, rfl⟩ := h1
        exact ⟨g, rfl⟩
      · cases h1
        exact ⟨s.game_grid, rfl⟩
  have hh : ∃ g, s2 = { s1 with game_grid := g } := by
    unfold resize_height at h2
    split at h2
    · simp only [Option.map_eq_some'] at h2
      obtain ⟨g, _, rfl⟩ := h2
      exact ⟨g, rfl⟩
    · split at h2
      · simp only [Option.map_eq_some'] at h2
        obtain ⟨g, _, rfl⟩ := h2
        exact ⟨g, rfl⟩
      · cases h2
        exact ⟨s1.game_grid, rfl⟩
  obtain ⟨g1, rfl⟩ := hw
  obtain ⟨g2, rfl⟩ := hh
  cases h3
  exact ⟨_, rfl⟩

theorem advance_stage0_lt (s : State) (h0 : s.transition_stage = 0)
    (hlt : s.transition_percent < 100) :
    advance_transition s =
      some ({ s with transition_percent := s.transition_percent + 3 / 2,
                     game_grid := transition s.game_grid (s.transition_percent + 3 / 2) }, []) := by
  unfold advance_transition
  rw [if_pos h0, if_pos hlt]
  rfl

theorem game_list_at_pos (i : Int) (h : 0 ≤ i ∧ i < game_count) :
    game_list_at i = some i.toNat := by
  unfold game_list_at; rw [if_pos h]

theorem game_list_at_neg (i : Int) (h : ¬ (0 ≤ i ∧ i < game_count)) :
    game_list_at i = none := by
  unfold game_list_at; rw [if_neg h]

theorem advance_stage0_ge (s : State) (h0 : s.transition_stage = 0)
    (hge : ¬ s.transition_percent < 100) (a : State) (ev : List Event) :
    advance_transition s = some (a, ev) ↔
      (s.current_game ≠ -1 → 0 ≤ s.current_game ∧ s.current_game < game_count)
      ∧ (0 ≤ s.next_game ∧ s.next_game < game_count)
      ∧ a = { s with transition_stage := 1, current_game := s.next_game, next_game := -1,
                     objects := if s.current_game ≠ -1 then [] else s.objects,
                     game_grid := transition s.game_grid s.transition_percent }
      ∧ ev = (if s.current_game ≠ -1 then
                [Event.objects_clear, Event.subgame_exit s.current_game.toNat] else [])
              ++ [Event.subgame_init s.next_game.toNat] := by
  unfold advance_transition
  rw [if_pos h0, if_neg hge]
  unfold exit_current enter_next
  by_cases hc : s.current_game ≠ -1
  · by_cases hcr : 0 ≤ s.current_game ∧ s.current_game < game_count
    · by_cases hnr : 0 ≤ s.next_game ∧ s.next_game < game_count
      · simp only [if_pos hc, game_list_at_pos _ hcr, game_list_at_pos _ hnr,
          Option.bind_eq_bind, Option.pure_def, Option.some_bind]
        constructor
        · intro e
          simp only [Option.some.injEq, Prod.mk.injEq] at e
          exact ⟨fun _ => hcr, hnr, e.1.symm, e.2.symm⟩
        · rintro ⟨-, -, rfl, rfl⟩
          rfl
      · simp only [if_pos hc, game_list_at_pos _ hcr, game_list_at_neg _ hnr,
          Option.bind_eq_bind, Option.pure_def, Option.some_bind, Option.none_bind]
        constructor
        · intro e; cases e
        · rintro ⟨-, h, -⟩; exact absurd h hnr
    · simp only [if_pos hc, game_list_at_neg _ hcr,
        Option.bind_eq_bind, Option.pure_def, Option.none_bind]
      constructor
      · intro e; cases e
      · rintro ⟨h, -⟩; exact absurd (h hc) hcr
  · by_cases hnr : 0 ≤ s.next_game ∧ s.next_game < game_count
    · simp only [if_neg hc, game_list_at_pos _ hnr,
        Option.bind_eq_bind, Option.pure_def, Option.some_bind]
      constructor
      · intro e
        simp only [Option.some.injEq, Prod.mk.injEq] at e
        exact ⟨fun h => absurd h hc, hnr, e.1.symm, e.2.symm⟩
      · rintro ⟨-, -, rfl, rfl⟩
        rfl
    · simp only [if_neg hc, game_list_at_neg _ hnr,
        Option.bind_eq_bind, Option.pure_def, Option.some_bind, Option.none_bind]
      constructor
      · intro e; cases e
      · rintro ⟨-, h, -⟩; exact absurd h hnr

theorem advance_stage1 (s : State) (h1 : s.transition_stage = 1) :
    advance_transition s =
      some (if s.transition_percent < 200 then
              { s with transition_percent := s.transition_percent + 3 / 2,
                       game_grid := transition s.game_grid (s.transition_percent + 3 / 2) }
            else
              { s with transition_percent := 0, transition_stage := -1,
                       game_grid := transition s.game_grid 0 }, []) := by
  unfold advance_transition
  have h0 : ¬ s.transition_stage = 0 := by rw [h1]; decide
  rw [if_neg h0, if_pos h1]
  split <;> rfl

theorem advance_other (s : State) (h0 : s.transition_stage ≠ 0) (h1 : s.transition_stage ≠ 1) :
    advance_transition s = some (s, []) := by
  unfold advance_transition
  rw [if_neg h0, if_neg h1]
  rfl

theorem dispatch_eq_some (s : State) (ev : List Event) :
    dispatch s = some ev ↔
      (s.current_game = -1 ∧ ev = [])
      ∨ (s.current_game ≠ -1 ∧ (0 ≤ s.current_game ∧ s.current_game < game_count)
          ∧ ev = (if s.transition_stage = -1 then
                    s.objects.map Event.step_function
                      ++ [Event.subgame_run s.current_game.toNat] else [])
                 ++ s.objects.map Event.draw_function
                 ++ [Event.subgame_draw s.current_game.toNat]) := by
  unfold dispatch
  by_cases hc : s.current_game ≠ -1
  · rw [if_pos hc]
    by_cases hr : 0 ≤ s.current_game ∧ s.current_game < game_count
    · have hval : (do
          let stepped ←
            if s.transition_stage = -1 then do
              let game ← game_list_at s.current_game
              pure (s.objects.map Event.step_function ++ [Event.subgame_run game])
            else pure []
          let game ← game_list_at s.current_game
          pure (stepped ++ s.objects.map Event.draw_function ++ [Event.subgame_draw game]))
          = some ((if s.transition_stage = -1 then
                    s.objects.map Event.step_function
                      ++ [Event.subgame_run s.current_game.toNat] else [])
                 ++ s.objects.map Event.draw_function
                 ++ [Event.subgame_draw s.current_game.toNat]) := by
        by_cases hs : s.transition_stage = -1
        · simp only [if_pos hs, game_list_at_pos _ hr, Option.bind_eq_bind, Option.pure_def,
            Option.some_bind]
        · simp only [if_neg hs, game_list_at_pos _ hr, Option.bind_eq_bind, Option.pure_def,
            Option.some_bind]
      rw [hval]
      constructor
      · intro e
        exact Or.inr ⟨hc, hr, (Option.some.inj e).symm⟩
      · rintro (⟨h, -⟩ | ⟨-, -, rfl⟩)
        · exact absurd h hc
        · rfl
    · have hval : (do
          let stepped ←
            if s.transition_stage = -1 then do
              let game ← game_list_at s.current_game
              pure (s.objects.map Event.step_function ++ [Event.subgame_run game])
            else pure []
          let game ← game_list_at s.current_game
          pure (stepped ++ s.objects.map Event.draw_function ++ [Event.subgame_draw game]))
          = none := by
        by_cases hs : s.transition_stage = -1
        · simp only [if_pos hs, game_list_at_neg _ hr, Option.bind_eq_bind, Option.pure_def,
            Option.none_bind]
        · simp only [if_neg hs, game_list_at_neg _ hr, Option.bind_eq_bind, Option.pure_def,
            Option.some_bind, Option.none_bind]
      rw [hval]
      constructor
      · intro e; cases e
      · rintro (⟨h, -⟩ | ⟨-, h, -⟩)
        · exact absurd h hc
        · exact absurd h hr
  · rw [if_neg hc]
    have hc1 : s.current_game = -1 := not_not.mp hc
    constructor
    · intro e; cases e; exact Or.inl ⟨hc1, rfl⟩
    · rintro (⟨-, rfl⟩ | ⟨h, -⟩)
      · rfl
      · exact absurd hc1 h

theorem onFrame_running_iff (s : State) (k : Buttons) (s1 : State) (ev : List Event) :
    onFrame s k = FrameResult.running s1 ev ↔
      k.plus = false
      ∧ ∃ r a switched called,
          resize_grid (handle_buttons s k) = some r
          ∧ advance_transition (start_transition r) = some (a, switched)
          ∧ dispatch a = some called
          ∧ s1 = rotate a k ∧ ev = switched ++ called := by
  unfold onFrame
  cases hp : k.plus
  · simp only [Bool.false_eq_true, if_false, true_and]
    constructor
    · intro h
      split at h
      · cases h
      · rename_i r hr
        split at h
        · cases h
        · rename_i a switched ha
          split at h
          · cases h
          · rename_i called hd
            cases h
            exact ⟨r, a, switched, called, hr, ha, hd, rfl, rfl⟩
    · rintro ⟨r, a, switched, called, hr, ha, hd, rfl, rfl⟩
      simp only [hr, ha, hd]
  · simp only [if_true]
    constructor
    · intro h; cases h
    · rintro ⟨h, -⟩; cases h

theorem start_transition_fields (s : State) :
    (start_transition s).current_game = s.current_game
    ∧ (start_transition s).next_game = s.next_game
    ∧ (start_transition s).objects = s.objects
    ∧ (start_transition s).game_grid = s.game_grid
    ∧ (start_transition s).target_grid_width = s.target_grid_width
    ∧ (start_transition s).target_grid_height = s.target_grid_height
    ∧ (start_transition s).transition_stage
        = (if (s.next_game ≠ -1 ∧ s.next_game ≠ s.current_game) ∧ s.transition_stage = -1
           then 0 else s.transition_stage)
    ∧ (start_transition s).transition_percent
        = (if (s.next_game ≠ -1 ∧ s.next_game ≠ s.current_game) ∧ s.transition_stage = -1
           then 0 else s.transition_percent) := by
  unfold start_transition
  split <;> exact ⟨rfl, rfl, rfl, rfl, rfl, rfl, rfl, rfl⟩

theorem rotate_fields (s : State) (k : Buttons) :
    (rotate s k).current_game = s.current_game
    ∧ (rotate s k).next_game = s.next_game
    ∧ (rotate s k).transition_stage = s.transition_stage
    ∧ (rotate s k).transition_percent = s.transition_percent
    ∧ (rotate s k).objects = s.objects
    ∧ (rotate s k).game_grid = s.game_grid
    ∧ (rotate s k).target_grid_width = s.target_grid_width
    ∧ (rotate s k).target_grid_height = s.target_grid_height := by
  unfold rotate
  split <;> exact ⟨rfl, rfl, rfl, rfl, rfl, rfl, rfl, rfl⟩

/-- A completed tick, phase by phase: `st` is the state after buttons, resize and the start
check, `a` the state after the transition update. -/
theorem tick_unfold (s : State) (k : Buttons) (s1 : State) (ev : List Event)
    (h : onFrame s k = FrameResult.running s1 ev) :
    ∃ st a switched called,
      k.plus = false
      ∧ st.current_game = s.current_game
      ∧ st.next_game = (handle_buttons s k).next_game
      ∧ st.objects = s.objects
      ∧ st.transition_stage
          = (if ((handle_buttons s k).next_game ≠ -1
                ∧ (handle_buttons s k).next_game ≠ s.current_game) ∧ s.transition_stage = -1
             then 0 else s.transition_stage)
      ∧ st.transition_percent
          = (if ((handle_buttons s k).next_game ≠ -1
                ∧ (handle_buttons s k).next_game ≠ s.current_game) ∧ s.transition_stage = -1
             then 0 else s.transition_percent)
      ∧ completes_stage0 s k = decide (st.transition_stage = 0 ∧ ¬ st.transition_percent < 100)
      ∧ advance_transition st = some (a, switched)
      ∧ dispatch a = some called
      ∧ ev = switched ++ called
      ∧ s1.current_game = a.current_game
      ∧ s1.next_game = a.next_game
      ∧ s1.transition_stage = a.transition_stage
      ∧ s1.transition_percent = a.transition_percent
      ∧ s1.objects = a.objects := by
  obtain ⟨hp, r, a, switched, called, hr, ha, hd, rfl, rfl⟩ := (onFrame_running_iff s k s1 ev).mp h
  obtain ⟨g, rfl⟩ := resize_grid_fields _ _ hr
  have hb := handle_buttons_fields s k
  have hst := start_transition_fields { handle_buttons s k with game_grid := g }
  have hrot := rotate_fields a k
  refine ⟨start_transition { handle_buttons s k with game_grid := g }, a, switched, called, hp,
    ?_, hst.2.1, ?_, ?_, ?_, ?_, ha, hd, rfl, hrot.1, hrot.2.1, hrot.2.2.1, hrot.2.2.2.1,
    hrot.2.2.2.2.1⟩
  · rw [hst.1]; exact hb.1
  · rw [hst.2.2.1]; exact hb.2.2.2.2
  · rw [hst.2.2.2.2.2.2.1]
    simp only [hb.1, hb.2.1]
  · rw [hst.2.2.2.2.2.2.2]
    simp only [hb.1, hb.2.1, hb.2.2.1]
  · unfold completes_stage0
    rw [hr]

theorem running_of_is_running (r : FrameResult) (d : State) (h : r.is_running = true) :
    r = FrameResult.running (r.state d) r.events := by
  cases r with
  | quit => cases h
  | thrown => cases h
  | running s ev => rfl

theorem onFrame_total (s : State) (k : Buttons) (hi : s.indices_ok) (ht : s.targets_ok)
    (hp : k.plus = false) : ∃ s1 ev, onFrame s k = FrameResult.running s1 ev := by
  have hb := handle_buttons_fields s k
  have hn := handle_buttons_next_game s k
  have htg := handle_buttons_targets s k
  have hw : 0 ≤ (handle_buttons s k).target_grid_width := by
    rw [htg.1]; split_ifs <;> first | exact ht.1 | decide
  have hh : 0 ≤ (handle_buttons s k).target_grid_height := by
    rw [htg.2]; split_ifs <;> first | exact ht.2 | decide
  obtain ⟨g, hr, -, -⟩ := resize_grid_spec (handle_buttons s k) hw hh
  have hst := start_transition_fields { handle_buttons s k with game_grid := g }
  obtain ⟨⟨hc1, hc2⟩, ⟨hn1, hn2⟩, hs0⟩ := hi
  unfold game_count at hc2 hn2
  have hreq : -1 ≤ (handle_buttons s k).next_game ∧ (handle_buttons s k).next_game < 2 := by
    rw [hn]; split_ifs <;> omega
  -- the state after the start check
  generalize hstdef : start_transition { handle_buttons s k with game_grid := g } = st at hst
  have hcur : st.current_game = s.current_game := by rw [hst.1]; exact hb.1
  have hnext : st.next_game = (handle_buttons s k).next_game := hst.2.1
  have hadv : ∃ a switched, advance_transition st = some (a, switched)
      ∧ (-1 ≤ a.current_game ∧ a.current_game < 2) := by
    by_cases h0 : st.transition_stage = 0
    · by_cases hlt : st.transition_percent < 100
      · exact ⟨_, _, advance_stage0_lt st h0 hlt, by dsimp only; omega⟩
      · have hne : st.next_game ≠ -1 := by
          rw [hst.2.2.2.2.2.2.1] at h0
          simp only [hb.1, hb.2.1] at h0
          rw [hnext]
          split at h0
          · rename_i hs; exact hs.1.1
          · have := hs0 h0
            intro hreq1
            rw [hn] at hreq1
            split_ifs at hreq1
            omega
        refine ⟨_, _, (advance_stage0_ge st h0 hlt _ _).mpr ⟨?_, ?_, rfl, rfl⟩, ?_⟩
        · intro hc; unfold game_count; omega
        · unfold game_count; omega
        · dsimp only; omega
    · by_cases h1 : st.transition_stage = 1
      · refine ⟨_, _, advance_stage1 st h1, ?_⟩
        split <;> dsimp only <;> omega
      · exact ⟨_, _, advance_other st h0 h1, by omega⟩
  obtain ⟨a, switched, ha, hac⟩ := hadv
  have hdis : ∃ called, dispatch a = some called := by
    by_cases hc : a.current_game = -1
    · exact ⟨[], (dispatch_eq_some a []).mpr (Or.inl ⟨hc, rfl⟩)⟩
    · exact ⟨_, (dispatch_eq_some a _).mpr (Or.inr ⟨hc, by unfold game_count; omega, rfl⟩)⟩
  obtain ⟨called, hd⟩ := hdis
  exact ⟨_, _, (onFrame_running_iff s k _ _).mpr
    ⟨hp, _, a, switched, called, hr, by rw [hstdef]; exact ha, hd, rfl, rfl⟩⟩

theorem switch_step_eq (c n sg : Int) (p : ℚ) (k : Buttons) (req sg1 : Int) (p1 : ℚ)
    (hreq : req = if k.x then 1 else if k.y then 0 else n)
    (hsg : sg1 = if (req ≠ -1 ∧ req ≠ c) ∧ sg = -1 then 0 else sg)
    (hp : p1 = if (req ≠ -1 ∧ req ≠ c) ∧ sg = -1 then 0 else p) :
    switch_step (c, n, sg, p) k =
      if sg1 = 0 then
        if p1 < 100 then (c, req, sg1, p1 + 3 / 2) else (req, -1, 1, p1)
      else if sg1 = 1 then
        if p1 < 200 then (c, req, sg1, p1 + 3 / 2) else (c, req, -1, 0)
      else (c, req, sg1, p1) := by
  unfold switch_step
  simp only [← hreq]
  by_cases hst : (req ≠ -1 ∧ req ≠ c) ∧ sg = -1
  · rw [if_pos hst] at hsg hp
    simp only [if_pos hst, hsg, hp]
  · rw [if_neg hst] at hsg hp
    simp only [if_neg hst, hsg, hp]

/-- One completed tick, summarised: the switch fields follow `switch_step`; the tick either
completes stage 0 and switches, or is quiet; and the stage moves `-1 → {-1, 0}`,
`0 → {0, 1}`, `1 → {1, -1}`. -/
theorem tick_summary (s : State) (k : Buttons) (s1 : State) (ev : List Event)
    (h : onFrame s k = FrameResult.running s1 ev) :
    s1.switch = switch_step s.switch k
    ∧ (completes_stage0 s k = true →
        s.transition_stage = 0 ∧ Tick.switches ⟨s, k, s1, ev⟩)
    ∧ (completes_stage0 s k = false →
        Tick.quiet ⟨s, k, s1, ev⟩
        ∧ (s.transition_stage = -1 → s1.transition_stage = -1 ∨ s1.transition_stage = 0)
        ∧ (s.transition_stage = 0 → s1.transition_stage = 0)
        ∧ (s.transition_stage = 1 → s1.transition_stage = 1 ∨ s1.transition_stage = -1)) := by
  obtain ⟨st, a, switched, called, hp, hcur, hnext, hobj, hstage, hpct, hcomp, hadv, hdis, rfl,
    e1, e2, e3, e4, e5⟩ := tick_unfold s k s1 ev h
  have hsw := switch_step_eq s.current_game s.next_game s.transition_stage s.transition_percent k
    st.next_game st.transition_stage st.transition_percent
    (by rw [hnext]; exact handle_buttons_next_game s k)
    (by rw [hstage, hnext]) (by rw [hpct, hnext])
  have hswitch : s.switch = (s.current_game, s.next_game, s.transition_stage,
    s.transition_percent) := rfl
  have hs1 : s1.switch = (a.current_game, a.next_game, a.transition_stage,
    a.transition_percent) := by
    unfold State.switch; rw [e1, e2, e3, e4]
  rw [hswitch, hsw, hs1, hcomp]
  have hlife : ∀ l : List Nat, (l.map Event.draw_function).filter Event.is_lifecycle = []
      ∧ (l.map Event.step_function).filter Event.is_lifecycle = [] := by
    intro l
    induction l with
    | nil => exact ⟨rfl, rfl⟩
    | cons x xs ih =>
      simp only [List.map_cons, List.filter_cons, Event.is_lifecycle, Bool.false_eq_true,
        if_false]
      exact ih
  have hquietcalled : ∀ b : State, b.current_game = s.current_game →
      dispatch b = some called → called.filter Event.is_lifecycle = [] := by
    intro b _ hb
    rcases (dispatch_eq_some b called).mp hb with ⟨-, rfl⟩ | ⟨-, -, rfl⟩
    · rfl
    · simp only [List.filter_append, (hlife b.objects).1]
      split
      · simp only [List.filter_append, (hlife b.objects).2]
        rfl
      · rfl
  by_cases h0 : st.transition_stage = 0
  · by_cases hlt : st.transition_percent < 100
    · -- stage 0, still closing
      rw [advance_stage0_lt st h0 hlt] at hadv
      cases hadv
      have hne : ¬ (st.transition_stage = 0 ∧ ¬ st.transition_percent < 100) :=
        fun hh => hh.2 hlt
      refine ⟨by rw [if_pos h0, if_pos hlt]; simp only [hcur], ?_, ?_⟩
      · intro hc; rw [decide_eq_true_eq] at hc; exact absurd hc hne
      · intro _
        refine ⟨⟨by rw [hcomp]; exact decide_eq_false hne, by rw [e1]; exact hcur, ?_⟩, ?_, ?_, ?_⟩
        · show ([] ++ called).filter Event.is_lifecycle = []
          exact hquietcalled _ hcur hdis
        · intro _; right; rw [e3]; exact h0
        · intro _; rw [e3]; exact h0
        · intro hs; exfalso
          rw [hstage, hs] at h0
          split at h0 <;> omega
    · -- stage 0 completes
      obtain ⟨hcr, hnr, rfl, rfl⟩ := (advance_stage0_ge st h0 hlt a switched).mp hadv
      have hyes : st.transition_stage = 0 ∧ ¬ st.transition_percent < 100 := ⟨h0, hlt⟩
      have hs0 : s.transition_stage = 0 := by
        rw [hstage] at h0
        split at h0
        · exfalso
          rename_i hstart
          rw [hpct, if_pos hstart] at hlt
          exact hlt (by norm_num)
        · exact h0
      refine ⟨by rw [if_pos h0, if_neg hlt], ?_, ?_⟩
      · intro _
        refine ⟨hs0, by rw [hcomp]; exact decide_eq_true hyes, ?_, ?_, ?_, ?_, ?_, ?_, ?_⟩
        · show 0 ≤ (handle_buttons s k).next_game ∧ (handle_buttons s k).next_game < game_count
          rw [← hnext]; exact hnr
        · show s1.current_game = (handle_buttons s k).next_game
          rw [e1, ← hnext]
        · show s1.next_game = -1
          rw [e2]
        · show s1.transition_stage = 1
          rw [e3]
        · show s.current_game ≠ -1 → s1.objects = []
          intro hc
          rw [e5]
          show (if st.current_game ≠ -1 then [] else st.objects) = []
          rw [hcur, if_pos hc]
        · show _ ++ called = _
          have hne1 : st.next_game ≠ -1 := by omega
          rcases (dispatch_eq_some _ called).mp hdis with ⟨hc, -⟩ | ⟨-, -, rfl⟩
          · exact absurd hc hne1
          · have hnot : ¬ ((1 : Int) = -1) := by decide
            simp only [if_neg hnot, List.nil_append, hcur]
            rw [e5, e1]
            simp only [List.append_assoc, hcur]
        · show k.x = false → k.y = false → s1.current_game = s.next_game
          intro hx hy
          rw [e1]
          show st.next_game = s.next_game
          rw [hnext, handle_buttons_next_game, hx, hy]
          rfl
      · intro hc; rw [decide_eq_false_iff_not] at hc; exact absurd hyes hc
  · have hne : ¬ (st.transition_stage = 0 ∧ ¬ st.transition_percent < 100) :=
      fun hh => h0 hh.1
    have hsne : s.transition_stage ≠ 0 := by
      intro hs; apply h0; rw [hstage, hs]; split <;> rfl
    by_cases h1 : st.transition_stage = 1
    · -- stage 1
      rw [advance_stage1 st h1] at hadv
      have hs1' : s.transition_stage = 1 := by
        rw [hstage] at h1
        split at h1
        · omega
        · exact h1
      cases hadv
      refine ⟨?_, ?_, ?_⟩
      · rw [if_neg h0, if_pos h1]
        split <;> simp only [hcur]
      · intro hc; rw [decide_eq_true_eq] at hc; exact absurd hc hne
      · intro _
        refine ⟨⟨by rw [hcomp]; exact decide_eq_false hne, ?_, ?_⟩, ?_, ?_, ?_⟩
        · show s1.current_game = s.current_game
          rw [e1]; split <;> exact hcur
        · show ([] ++ called).filter Event.is_lifecycle = []
          refine hquietcalled _ ?_ hdis
          split <;> exact hcur
        · intro hs; omega
        · intro hs; omega
        · intro _
          rw [e3]
          split
          · left; exact h1
          · right; rfl
    · -- no transition in progress
      rw [advance_other st h0 h1] at hadv
      cases hadv
      refine ⟨by rw [if_neg h0, if_neg h1]; simp only [hcur], ?_, ?_⟩
      · intro hc; rw [decide_eq_true_eq] at hc; exact absurd hc hne
      · intro _
        refine ⟨⟨by rw [hcomp]; exact decide_eq_false hne, by rw [e1]; exact hcur, ?_⟩, ?_, ?_, ?_⟩
        · show ([] ++ called).filter Event.is_lifecycle = []
          exact hquietcalled _ hcur hdis
        · intro hs
          left
          rw [e3, hstage, hs]
          rw [hstage, hs] at h0
          split
          · rename_i hstart; rw [if_pos hstart] at h0; exact absurd rfl h0
          · rfl
        · intro hs; exact absurd hs hsne
        · intro hs; exfalso; apply h1; rw [hstage, hs]; split
          · rename_i hstart; omega
          · rfl

theorem advance_grid (st a : State) (switched : List Event)
    (h : advance_transition st = some (a, switched)) :
    a.target_grid_width = st.target_grid_width
    ∧ a.target_grid_height = st.target_grid_height
    ∧ grid_width a.game_grid = grid_width st.game_grid
    ∧ grid_height a.game_grid = grid_height st.game_grid := by
  by_cases h0 : st.transition_stage = 0
  · by_cases hlt : st.transition_percent < 100
    · rw [advance_stage0_lt st h0 hlt] at h
      cases h
      exact ⟨rfl, rfl, (transition_size _ _).1, (transition_size _ _).2⟩
    · obtain ⟨-, -, rfl, -⟩ := (advance_stage0_ge st h0 hlt a switched).mp h
      exact ⟨rfl, rfl, (transition_size _ _).1, (transition_size _ _).2⟩
  · by_cases h1 : st.transition_stage = 1
    · rw [advance_stage1 st h1] at h
      cases h
      split <;> exact ⟨rfl, rfl, (transition_size _ _).1, (transition_size _ _).2⟩
    · rw [advance_other st h0 h1] at h
      cases h
      exact ⟨rfl, rfl, rfl, rfl⟩

/-- A completed tick keeps the targets the buttons set and moves each grid dimension one
step toward its target. -/
theorem tick_grid (s : State) (k : Buttons) (s1 : State) (ev : List Event)
    (h : onFrame s k = FrameResult.running s1 ev)
    (hw : 0 ≤ (handle_buttons s k).target_grid_width)
    (hh : 0 ≤ (handle_buttons s k).target_grid_height) :
    s1.target_grid_width = (handle_buttons s k).target_grid_width
    ∧ s1.target_grid_height = (handle_buttons s k).target_grid_height
    ∧ grid_width s1.game_grid =
        (if grid_width s.game_grid < (handle_buttons s k).target_grid_width
          then grid_width s.game_grid + 1
         else if grid_width s.game_grid > (handle_buttons s k).target_grid_width
          then grid_width s.game_grid - 1
         else grid_width s.game_grid)
    ∧ grid_height s1.game_grid =
        (if grid_height s.game_grid < (handle_buttons s k).target_grid_height
          then grid_height s.game_grid + 1
         else if grid_height s.game_grid > (handle_buttons s k).target_grid_height
          then grid_height s.game_grid - 1
         else grid_height s.game_grid) := by
  obtain ⟨-, r, a, switched, called, hr, ha, -, rfl, -⟩ := (onFrame_running_iff s k s1 ev).mp h
  obtain ⟨g, hg, hgw, hgh⟩ := resize_grid_spec (handle_buttons s k) hw hh
  rw [hg] at hr
  cases hr
  have hst := start_transition_fields { handle_buttons s k with game_grid := g }
  have hadv := advance_grid _ _ _ ha
  have hrot := rotate_fields a k
  have hb := handle_buttons_fields s k
  rw [hst.2.2.2.2.1, hst.2.2.2.2.2.1, hst.2.2.2.1] at hadv
  rw [hb.2.2.2.1] at hgw hgh
  refine ⟨?_, ?_, ?_, ?_⟩
  · rw [hrot.2.2.2.2.2.2.1, hadv.1]
  · rw [hrot.2.2.2.2.2.2.2, hadv.2.1]
  · rw [hrot.2.2.2.2.2.1, hadv.2.2.1]; exact hgw
  · rw [hrot.2.2.2.2.2.1, hadv.2.2.2]; exact hgh

theorem switch_step_ok (c n sg : Int) (p : ℚ) (k : Buttons)
    (hc : -1 ≤ c ∧ c < 2) (hn : -1 ≤ n ∧ n < 2) (h0 : sg = 0 → n ≠ -1) :
    (-1 ≤ (switch_step (c, n, sg, p) k).1 ∧ (switch_step (c, n, sg, p) k).1 < 2)
    ∧ (-1 ≤ (switch_step (c, n, sg, p) k).2.1 ∧ (switch_step (c, n, sg, p) k).2.1 < 2)
    ∧ ((switch_step (c, n, sg, p) k).2.2.1 = 0 → (switch_step (c, n, sg, p) k).2.1 ≠ -1) := by
  rw [switch_step_eq c n sg p k _ _ _ rfl rfl rfl]
  split_ifs <;> dsimp only <;> refine ⟨⟨?_, ?_⟩, ⟨?_, ?_⟩, ?_⟩ <;> omega

theorem onFrame_ok (s : State) (k : Buttons) (s1 : State) (ev : List Event)
    (h : onFrame s k = FrameResult.running s1 ev) (hi : s.indices_ok) (ht : s.targets_ok) :
    s1.indices_ok ∧ s1.targets_ok := by
  have htg := handle_buttons_targets s k
  have hw : 0 ≤ (handle_buttons s k).target_grid_width := by
    rw [htg.1]; split_ifs <;> first | exact ht.1 | decide
  have hh : 0 ≤ (handle_buttons s k).target_grid_height := by
    rw [htg.2]; split_ifs <;> first | exact ht.2 | decide
  have hg := tick_grid s k s1 ev h hw hh
  have hsw := (tick_summary s k s1 ev h).1
  have hok := switch_step_ok s.current_game s.next_game s.transition_stage
    s.transition_percent k hi.1 hi.2.1 hi.2.2
  have e : switch_step (s.current_game, s.next_game, s.transition_stage,
      s.transition_percent) k = s1.switch := hsw.symm
  rw [e] at hok
  refine ⟨hok, ?_, ?_⟩
  · rw [hg.1]; exact hw
  · rw [hg.2.1]; exact hh

theorem initial_state_ok : initial_state.indices_ok ∧ initial_state.targets_ok := by
  refine ⟨⟨⟨?_, ?_⟩, ⟨?_, ?_⟩, ?_⟩, ?_, ?_⟩ <;> decide

theorem reachable_ok (s : State) (h : Reachable s) : s.indices_ok ∧ s.targets_ok := by
  induction h with
  | init => exact initial_state_ok
  | frame _ hstep ih => exact onFrame_ok _ _ _ _ hstep ih.1 ih.2

/-! ## Switch requests (C1) -/

/-- C1, as stated, fails: from the constructor's state one tick without buttons starts the
wipe (`transition_stage = 0`, `next_game = 0`); on the next tick, which starts with
`transition_stage = 0`, pressing X changes `next_game` from 0 to 1. A request for the index
equal to `current_game` changes `next_game` as well (Y with `current_game = 0`,
`next_game = -1` gives `next_game = 0`). -/
theorem switch_request_counterexample :
    (run_frames initial_state [no_buttons, press_x]).map
        (fun ticks => ticks.map
          (fun t => (t.pre.transition_stage, t.pre.next_game, t.post.next_game)))
      = some [(-1, 0, 0), (0, 0, 1)]
    ∧ (handle_buttons { initial_state with current_game := 0, next_game := -1 } press_y).next_game
      = 0 := by
  decide!

/-- C1 (amended): a switch request always lands in `next_game`: after the button lines
`next_game` is 1 when X is pressed, else 0 when Y is pressed, else unchanged, whatever
`current_game` and `transition_stage` are, and it keeps that value to the end of the tick
unless the tick completes stage 0. The test "differs from `current_game` and
`transition_stage = -1`" decides only whether the wipe starts: a completed tick that begins
idle ends in stage 0 exactly when `next_game` after the request is neither `-1` nor
`current_game`, and ends idle otherwise. -/
theorem switch_request (s : State) (k : Buttons) :
    (handle_buttons s k).next_game = (if k.x then 1 else if k.y then 0 else s.next_game)
    ∧ ∀ s1 ev, onFrame s k = FrameResult.running s1 ev →
        (completes_stage0 s k = false → s1.next_game = (handle_buttons s k).next_game)
        ∧ (s.transition_stage = -1 →
            (s1.transition_stage = 0 ↔
              ((handle_buttons s k).next_game ≠ -1
                ∧ (handle_buttons s k).next_game ≠ s.current_game))
            ∧ (s1.transition_stage = 0 ∨ s1.transition_stage = -1)) := by
  refine ⟨handle_buttons_next_game s k, ?_⟩
  intro s1 ev h
  have hsum := (tick_summary s k s1 ev h).1
  obtain ⟨st, a, switched, called, -, -, hnext, -, hstage, hpct, hcomp, -⟩ :=
    tick_unfold s k s1 ev h
  have hsw := switch_step_eq s.current_game s.next_game s.transition_stage s.transition_percent k
    st.next_game st.transition_stage st.transition_percent
    (by rw [hnext]; exact handle_buttons_next_game s k)
    (by rw [hstage, hnext]) (by rw [hpct, hnext])
  have hs : s1.switch = (s1.current_game, s1.next_game, s1.transition_stage,
    s1.transition_percent) := rfl
  have hs0 : s.switch = (s.current_game, s.next_game, s.transition_stage,
    s.transition_percent) := rfl
  rw [hs, hs0, hsw] at hsum
  rw [← hnext]
  constructor
  · intro hc
    rw [hcomp, decide_eq_false_iff_not] at hc
    split_ifs at hsum with c1 c2 c3 c4 <;>
      simp only [Prod.mk.injEq] at hsum <;> first | exact hsum.2.1 | exact absurd ⟨c1, c2⟩ hc
  · intro hidle
    rw [← hnext, hidle] at hstage hpct
    by_cases hstart : st.next_game ≠ -1 ∧ st.next_game ≠ s.current_game
    · have c1 : st.transition_stage = 0 := by rw [hstage, if_pos ⟨hstart, rfl⟩]
      have c2 : st.transition_percent < 100 := by
        rw [hpct, if_pos ⟨hstart, rfl⟩]; norm_num
      rw [if_pos c1, if_pos c2] at hsum
      simp only [Prod.mk.injEq] at hsum
      have e : s1.transition_stage = 0 := by rw [hsum.2.2.1]; exact c1
      exact ⟨⟨fun _ => hstart, fun _ => e⟩, Or.inl e⟩
    · have c1 : st.transition_stage = -1 := by
        rw [hstage, if_neg (fun hh => hstart hh.1)]
      have n0 : ¬ st.transition_stage = 0 := by rw [c1]; decide
      have n1 : ¬ st.transition_stage = 1 := by rw [c1]; decide
      rw [if_neg n0, if_neg n1] at hsum
      simp only [Prod.mk.injEq] at hsum
      have e : s1.transition_stage = -1 := by rw [hsum.2.2.1]; exact c1
      refine ⟨⟨fun h0 => ?_, fun hh => absurd hh hstart⟩, Or.inr e⟩
      rw [e] at h0
      exact absurd h0 (by decide)

/-- C1 witness: from the constructor's state (idle, `current_game = -1`) a tick with X pressed
completes, does not complete stage 0, ends with `next_game = 1` and in stage 0. -/
theorem switch_request_witness :
    onFrame initial_state press_x
      = FrameResult.running ((onFrame initial_state press_x).state initial_state)
          (onFrame initial_state press_x).events
    ∧ completes_stage0 initial_state press_x = false
    ∧ initial_state.transition_stage = -1
    ∧ ((onFrame initial_state press_x).state initial_state).next_game = 1
    ∧ ((onFrame initial_state press_x).state initial_state).transition_stage = 0 :=
  have hrun := running_of_is_running (onFrame initial_state press_x) initial_state (by decide!)
  have hc : completes_stage0 initial_state press_x = false := by decide!
  have hthm := (switch_request initial_state press_x).2 _ _ hrun
  ⟨hrun, hc, rfl, (hthm.1 hc).trans (by decide!),
    ((hthm.2 rfl).1).mpr (by decide!)⟩

/-! ## Per-frame dispatch (C10) -/

theorem run_frames_cons (s : State) (k : Buttons) (ks : List Buttons) (ticks : List Tick) :
    run_frames s (k :: ks) = some ticks ↔
      ∃ s1 ev rest, onFrame s k = FrameResult.running s1 ev
        ∧ run_frames s1 ks = some rest ∧ ticks = ⟨s, k, s1, ev⟩ :: rest := by
  rw [run_frames]
  constructor
  · intro h
    split at h
    · rename_i s1 ev hrun
      rw [Option.map_eq_some'] at h
      obtain ⟨rest, hrest, rfl⟩ := h
      exact ⟨s1, ev, rest, hrun, hrest, rfl⟩
    · cases h
  · rintro ⟨s1, ev, rest, hrun, hrest, rfl⟩
    simp only [hrun, hrest, Option.map_some']

theorem final_state_cons (s : State) (t : Tick) (rest : List Tick) :
    final_state s (t :: rest) = final_state t.post rest := by
  unfold final_state
  cases rest with
  | nil => rfl
  | cons u us => rw [List.getLast?_cons_cons, List.getLast?_cons]

theorem run_frames_total (keys : List Buttons) (s : State) (hi : s.indices_ok)
    (ht : s.targets_ok) (hkeys : ∀ k ∈ keys, k.plus = false) :
    ∃ ticks, run_frames s keys = some ticks := by
  induction keys generalizing s with
  | nil => exact ⟨[], rfl⟩
  | cons k ks ih =>
    obtain ⟨s1, ev, h⟩ := onFrame_total s k hi ht (hkeys k (List.mem_cons_self k ks))
    obtain ⟨hi1, ht1⟩ := onFrame_ok s k s1 ev h hi ht
    obtain ⟨rest, hrest⟩ := ih s1 hi1 ht1 (fun x hx => hkeys x (List.mem_cons_of_mem k hx))
    exact ⟨_, (run_frames_cons s k ks _).mpr ⟨s1, ev, rest, h, hrest, rfl⟩⟩

theorem run_frames_switch (keys : List Buttons) (s : State) (ticks : List Tick)
    (h : run_frames s keys = some ticks) :
    ticks.map (fun t => t.post.switch) = switch_run s.switch keys := by
  induction keys generalizing s ticks with
  | nil =>
    rw [run_frames] at h
    cases h
    rfl
  | cons k ks ih =>
    obtain ⟨s1, ev, rest, hrun, hrest, rfl⟩ := (run_frames_cons s k ks ticks).mp h
    have hsw := (tick_summary s k s1 ev hrun).1
    rw [List.map_cons, switch_run, ih s1 rest hrest]
    show s1.switch :: _ = _
    rw [hsw]

theorem run_frames_reachable (keys : List Buttons) (s : State) (ticks : List Tick)
    (hs : Reachable s) (h : run_frames s keys = some ticks) :
    Reachable (final_state s ticks) := by
  induction keys generalizing s ticks with
  | nil =>
    rw [run_frames] at h
    cases h
    exact hs
  | cons k ks ih =>
    obtain ⟨s1, ev, rest, hrun, hrest, rfl⟩ := (run_frames_cons s k ks ticks).mp h
    rw [final_state_cons]
    exact ih s1 rest (Reachable.frame hs hrun) hrest

theorem run_ticks_eq (s : State) (keys : List Buttons) (ticks : List Tick)
    (h : run_frames s keys = some ticks) : run_ticks s keys = ticks := by
  unfold run_ticks
  rw [h]
  rfl

/-! ## Resize toward the target (C7) -/

/-- C7: from a state with valid game indices, grid width `w0`, grid height `h0` and
non-negative targets `tw`, `th`, any `n` ticks without Plus (each tick completes) and
without A or B (the targets stay fixed) all complete; afterwards the width is
`w0 + min(n, tw - w0)` when `w0 ≤ tw` and `w0 - min(n, w0 - tw)` otherwise, the height likewise
toward `th`, and on every one of the ticks each dimension moves by exactly 1 toward its
target or, when already there, stays. -/
theorem resize_toward_target (keys : List Buttons) (s : State)
    (hi : s.indices_ok) (ht : s.targets_ok)
    (hkeys : ∀ k ∈ keys, k.plus = false ∧ k.a = false ∧ k.b = false) :
    ∃ ticks, run_frames s keys = some ticks
      ∧ ticks.length = keys.length
      ∧ (final_state s ticks).target_grid_width = s.target_grid_width
      ∧ (final_state s ticks).target_grid_height = s.target_grid_height
      ∧ grid_width (final_state s ticks).game_grid =
          (if grid_width s.game_grid ≤ s.target_grid_width then
            grid_width s.game_grid
              + min (keys.length : Int) (s.target_grid_width - grid_width s.game_grid)
           else
            grid_width s.game_grid
              - min (keys.length : Int) (grid_width s.game_grid - s.target_grid_width))
      ∧ grid_height (final_state s ticks).game_grid =
          (if grid_height s.game_grid ≤ s.target_grid_height then
            grid_height s.game_grid
              + min (keys.length : Int) (s.target_grid_height - grid_height s.game_grid)
           else
            grid_height s.game_grid
              - min (keys.length : Int) (grid_height s.game_grid - s.target_grid_height))
      ∧ ∀ t ∈ ticks,
          grid_width t.post.game_grid =
            (if grid_width t.pre.game_grid < s.target_grid_width then
              grid_width t.pre.game_grid + 1
             else if grid_width t.pre.game_grid > s.target_grid_width then
              grid_width t.pre.game_grid - 1
             else grid_width t.pre.game_grid)
          ∧ grid_height t.post.game_grid =
            (if grid_height t.pre.game_grid < s.target_grid_height then
              grid_height t.pre.game_grid + 1
             else if grid_height t.pre.game_grid > s.target_grid_height then
              grid_height t.pre.game_grid - 1
             else grid_height t.pre.game_grid) := by
  induction keys generalizing s with
  | nil =>
    refine ⟨[], rfl, rfl, rfl, rfl, ?_, ?_, ?_⟩
    · show grid_width s.game_grid = _
      simp only [List.length_nil, Nat.cast_zero]
      split <;> omega
    · show grid_height s.game_grid = _
      simp only [List.length_nil, Nat.cast_zero]
      split <;> omega
    · intro t htm
      exact absurd htm (List.not_mem_nil t)
  | cons k ks ih =>
    obtain ⟨hp, ha, hb⟩ := hkeys k (List.mem_cons_self k ks)
    obtain ⟨s1, ev, h⟩ := onFrame_total s k hi ht hp
    obtain ⟨hi1, ht1⟩ := onFrame_ok s k s1 ev h hi ht
    have htg := handle_buttons_targets s k
    rw [ha, hb] at htg
    simp only [Bool.false_eq_true, if_false] at htg
    have hg := tick_grid s k s1 ev h (by rw [htg.1]; exact ht.1) (by rw [htg.2]; exact ht.2)
    rw [htg.1, htg.2] at hg
    obtain ⟨hw1, hh1, hgw, hgh⟩ := hg
    obtain ⟨rest, hrest, hlen, hfw, hfh, hwf, hhf, hall⟩ :=
      ih s1 hi1 ht1 (fun x hx => hkeys x (List.mem_cons_of_mem k hx))
    refine ⟨⟨s, k, s1, ev⟩ :: rest, (run_frames_cons s k ks _).mpr ⟨s1, ev, rest, h, hrest, rfl⟩,
      by rw [List.length_cons, List.length_cons, hlen], ?_, ?_, ?_, ?_, ?_⟩
    · rw [final_state_cons, hfw, hw1]
    · rw [final_state_cons, hfh, hh1]
    · rw [final_state_cons, hwf, hw1, hgw]
      simp only [List.length_cons, Nat.cast_add, Nat.cast_one]
      have hn : (0 : Int) ≤ (ks.length : Int) := Int.natCast_nonneg _
      generalize (ks.length : Int) = n at hn ⊢
      generalize grid_width s.game_grid = w
      generalize s.target_grid_width = tw
      simp only [min_def]
      split_ifs <;> omega
    · rw [final_state_cons, hhf, hh1, hgh]
      simp only [List.length_cons, Nat.cast_add, Nat.cast_one]
      have hn : (0 : Int) ≤ (ks.length : Int) := Int.natCast_nonneg _
      generalize (ks.length : Int) = n at hn ⊢
      generalize grid_height s.game_grid = w
      generalize s.target_grid_height = tw
      simp only [min_def]
      split_ifs <;> omega
    · intro t htm
      rcases List.mem_cons.mp htm with rfl | htm
      · exact ⟨hgw, hgh⟩
      · have := hall t htm
        rw [hw1, hh1] at this
        exact this

/-- C7 witness: width 10 with target 20 (height 20, target 20): after 10 ticks without
buttons the width is 20. -/
theorem resize_toward_target_witness :
    ({ initial_state with target_grid_width := 20 } : State).indices_ok
    ∧ ({ initial_state with target_grid_width := 20 } : State).targets_ok
    ∧ (∀ k ∈ List.replicate 10 no_buttons, k.plus = false ∧ k.a = false ∧ k.b = false)
    ∧ ∃ ticks,
        run_frames { initial_state with target_grid_width := 20 } (List.replicate 10 no_buttons)
          = some ticks
        ∧ grid_width (final_state { initial_state with target_grid_width := 20 } ticks).game_grid
          = 20 :=
  have hi : ({ initial_state with target_grid_width := 20 } : State).indices_ok := by
    refine ⟨⟨?_, ?_⟩, ⟨?_, ?_⟩, ?_⟩ <;> decide
  have ht : ({ initial_state with target_grid_width := 20 } : State).targets_ok := by
    refine ⟨?_, ?_⟩ <;> decide
  have hk : ∀ k ∈ List.replicate 10 no_buttons, k.plus = false ∧ k.a = false ∧ k.b = false := by
    intro k hk
    rw [List.eq_of_mem_replicate hk]
    exact ⟨rfl, rfl, rfl⟩
  ⟨hi, ht, hk,
    (resize_toward_target (List.replicate 10 no_buttons)
      { initial_state with target_grid_width := 20 } hi ht hk).imp
      (fun _ hx => ⟨hx.1, hx.2.2.2.2.1.trans (by decide)⟩)⟩

/-! ## The switch cycle (C2) -/

theorem run_stage1 (keys : List Buttons) (s : State) (ticks : List Tick)
    (hrun : run_frames s keys = some ticks) (h1 : s.transition_stage = 1)
    (hmid : ∀ t ∈ ticks.dropLast, t.post.transition_stage ≠ -1) :
    ∀ t ∈ ticks, t.quiet := by
  induction keys generalizing s ticks with
  | nil =>
    rw [run_frames] at hrun
    cases hrun
    intro t ht
    exact absurd ht (List.not_mem_nil t)
  | cons k ks ih =>
    obtain ⟨s1, ev, rest, hstep, hrest, rfl⟩ := (run_frames_cons s k ks ticks).mp hrun
    obtain ⟨-, hyes, hno⟩ := tick_summary s k s1 ev hstep
    have hc : completes_stage0 s k = false := by
      cases hcomp : completes_stage0 s k with
      | false => rfl
      | true =>
        have := (hyes hcomp).1
        rw [h1] at this
        exact absurd this (by decide)
    obtain ⟨hq, -, -, hnext⟩ := hno hc
    intro t ht
    rcases List.mem_cons.mp ht with rfl | ht
    · exact hq
    · have hne : rest ≠ [] := List.ne_nil_of_mem ht
      rw [List.dropLast_cons_of_ne_nil hne] at hmid
      have hs1 : s1.transition_stage = 1 := by
        rcases hnext h1 with h | h
        · exact h
        · exact absurd h (hmid _ (List.mem_cons_self _ _))
      exact ih s1 rest hrest hs1 (fun u hu => hmid u (List.mem_cons_of_mem _ hu)) t ht

theorem run_stage0 (keys : List Buttons) (s : State) (ticks : List Tick)
    (hrun : run_frames s keys = some ticks) (h0 : s.transition_stage = 0)
    (hmid : ∀ t ∈ ticks.dropLast, t.post.transition_stage ≠ -1)
    (hend : (final_state s ticks).transition_stage = -1) :
    ∃ before t after, ticks = before ++ t :: after ∧ t.switches
      ∧ ∀ u ∈ before ++ after, u.quiet := by
  induction keys generalizing s ticks with
  | nil =>
    rw [run_frames] at hrun
    cases hrun
    have : s.transition_stage = -1 := hend
    rw [h0] at this
    exact absurd this (by decide)
  | cons k ks ih =>
    obtain ⟨s1, ev, rest, hstep, hrest, rfl⟩ := (run_frames_cons s k ks ticks).mp hrun
    obtain ⟨-, hyes, hno⟩ := tick_summary s k s1 ev hstep
    rw [final_state_cons] at hend
    cases hcomp : completes_stage0 s k with
    | true =>
      obtain ⟨-, hsw⟩ := hyes hcomp
      have hs1 : s1.transition_stage = 1 := hsw.2.2.2.2.1
      have hmid1 : ∀ t ∈ rest.dropLast, t.post.transition_stage ≠ -1 := by
        intro t ht
        have hne : rest ≠ [] := by
          intro he; rw [he] at ht; exact absurd ht (List.not_mem_nil t)
        rw [List.dropLast_cons_of_ne_nil hne] at hmid
        exact hmid t (List.mem_cons_of_mem _ ht)
      exact ⟨[], _, rest, rfl, hsw, fun u hu => run_stage1 ks s1 rest hrest hs1 hmid1 u hu⟩
    | false =>
      obtain ⟨hq, -, hnext, -⟩ := hno hcomp
      have hs1 : s1.transition_stage = 0 := hnext h0
      have hmid1 : ∀ t ∈ rest.dropLast, t.post.transition_stage ≠ -1 := by
        intro t ht
        have hne : rest ≠ [] := by
          intro he; rw [he] at ht; exact absurd ht (List.not_mem_nil t)
        rw [List.dropLast_cons_of_ne_nil hne] at hmid
        exact hmid t (List.mem_cons_of_mem _ ht)
      obtain ⟨before, t, after, rfl, hsw, hall⟩ := ih s1 rest hrest hs1 hmid1 hend
      refine ⟨_ :: before, t, after, rfl, hsw, ?_⟩
      intro u hu
      rw [List.cons_append] at hu
      rcases List.mem_cons.mp hu with rfl | hu
      · exact hq
      · exact hall u hu

/-- C2: take any completed run of ticks that starts idle, is not idle after any tick but the
last (so it passes through stage 0 and stage 1), and is idle after the last. Exactly one
tick of the run is the tick on which stage 0 finds `transition_percent >= 100`
(`Tick.switches`): on it the object list is cleared and the old game's `subgame_exit` is
called once when `current_game != -1`, then `current_game` becomes `next_game`, `next_game`
becomes `-1`, the new game's `subgame_init` is called once, and the stage becomes 1. Every
other tick of the run (`Tick.quiet`) leaves `current_game` unchanged and calls neither
`subgame_exit` nor `subgame_init`. -/
theorem switch_cycle (s : State) (keys : List Buttons) (ticks : List Tick)
    (hrun : run_frames s keys = some ticks)
    (hidle : s.transition_stage = -1)
    (hlen : 2 ≤ ticks.length)
    (hmid : ∀ t ∈ ticks.dropLast, t.post.transition_stage ≠ -1)
    (hend : (final_state s ticks).transition_stage = -1) :
    ∃ before t after, ticks = before ++ t :: after ∧ t.switches
      ∧ ∀ u ∈ before ++ after, u.quiet := by
  cases keys with
  | nil =>
    rw [run_frames] at hrun
    cases hrun
    exact absurd hlen (by decide)
  | cons k ks =>
    obtain ⟨s1, ev, rest, hstep, hrest, rfl⟩ := (run_frames_cons s k ks ticks).mp hrun
    obtain ⟨-, hyes, hno⟩ := tick_summary s k s1 ev hstep
    have hc : completes_stage0 s k = false := by
      cases hcomp : completes_stage0 s k with
      | false => rfl
      | true =>
        have := (hyes hcomp).1
        rw [hidle] at this
        exact absurd this (by decide)
    obtain ⟨hq, hnext, -, -⟩ := hno hc
    have hne : rest ≠ [] := by
      intro he
      rw [he, List.length_singleton] at hlen
      exact absurd hlen (by decide)
    rw [List.dropLast_cons_of_ne_nil hne] at hmid
    have hs1 : s1.transition_stage = 0 := by
      rcases hnext hidle with h | h
      · exact absurd h (hmid _ (List.mem_cons_self _ _))
      · exact h
    rw [final_state_cons] at hend
    obtain ⟨before, t, after, rfl, hsw, hall⟩ :=
      run_stage0 ks s1 rest hrest hs1 (fun u hu => hmid u (List.mem_cons_of_mem _ hu)) hend
    refine ⟨_ :: before, t, after, rfl, hsw, ?_⟩
    intro u hu
    rw [List.cons_append] at hu
    rcases List.mem_cons.mp hu with rfl | hu
    · exact hq
    · exact hall u hu

theorem run_frames_length (keys : List Buttons) (s : State) (ticks : List Tick)
    (h : run_frames s keys = some ticks) : ticks.length = keys.length := by
  induction keys generalizing s ticks with
  | nil =>
    rw [run_frames] at h
    cases h
    rfl
  | cons k ks ih =>
    obtain ⟨s1, ev, rest, -, hrest, rfl⟩ := (run_frames_cons s k ks ticks).mp h
    rw [List.length_cons, List.length_cons, ih s1 rest hrest]

theorem final_state_switch (s : State) (ticks : List Tick) :
    (final_state s ticks).switch
      = ((ticks.map (fun t => t.post.switch)).getLast?).getD s.switch := by
  unfold final_state
  rw [List.getLast?_map]
  cases ticks.getLast? <;> rfl

theorem stage_eq_switch (s : State) : s.transition_stage = s.switch.2.2.1 := rfl

theorem current_eq_switch (s : State) : s.current_game = s.switch.1 := rfl

/-- The run of 136 ticks without buttons from the constructor's state completes. -/
theorem first_cycle_runs :
    run_frames initial_state (List.replicate 136 no_buttons)
      = some (run_ticks initial_state (List.replicate 136 no_buttons)) := by
  obtain ⟨ticks, h⟩ := run_frames_total (List.replicate 136 no_buttons) initial_state
    initial_state_ok.1 initial_state_ok.2
    (fun k hk => by rw [List.eq_of_mem_replicate hk]; rfl)
  rw [run_ticks_eq _ _ _ h]
  exact h

/-- After these 136 ticks game 0 is current, nothing is pending and the machine is idle. -/
theorem first_cycle_end :
    (final_state initial_state
      (run_ticks initial_state (List.replicate 136 no_buttons))).switch = (0, -1, -1, 0) := by
  rw [final_state_switch, run_frames_switch _ _ _ first_cycle_runs]
  decide!

/-- C2 witness: the 136 ticks without buttons from the constructor's state form such a run:
the wipe starts on the first tick, stage 0 completes on one tick, and the last tick returns
to idle. -/
theorem switch_cycle_witness :
    run_frames initial_state (List.replicate 136 no_buttons)
      = some (run_ticks initial_state (List.replicate 136 no_buttons))
    ∧ initial_state.transition_stage = -1
    ∧ 2 ≤ (run_ticks initial_state (List.replicate 136 no_buttons)).length
    ∧ (∀ t ∈ (run_ticks initial_state (List.replicate 136 no_buttons)).dropLast,
        t.post.transition_stage ≠ -1)
    ∧ (final_state initial_state
        (run_ticks initial_state (List.replicate 136 no_buttons))).transition_stage = -1
    ∧ ∃ before t after,
        run_ticks initial_state (List.replicate 136 no_buttons) = before ++ t :: after
        ∧ t.switches ∧ ∀ u ∈ before ++ after, u.quiet := by
  have hlen : 2 ≤ (run_ticks initial_state (List.replicate 136 no_buttons)).length := by
    rw [run_frames_length _ _ _ first_cycle_runs, List.length_replicate]
    decide
  have hmid : ∀ t ∈ (run_ticks initial_state (List.replicate 136 no_buttons)).dropLast,
      t.post.transition_stage ≠ -1 := by
    intro t ht
    have hmem : t.post.switch
        ∈ ((run_ticks initial_state (List.replicate 136 no_buttons)).map
            (fun t => t.post.switch)).dropLast := by
      rw [← List.map_dropLast]
      exact List.mem_map_of_mem (fun t => t.post.switch) ht
    rw [run_frames_switch _ _ _ first_cycle_runs] at hmem
    have hall : ∀ w ∈ (switch_run initial_state.switch
        (List.replicate 136 no_buttons)).dropLast, w.2.2.1 ≠ -1 := by decide!
    exact hall _ hmem
  have hend : (final_state initial_state
      (run_ticks initial_state (List.replicate 136 no_buttons))).transition_stage = -1 := by
    rw [stage_eq_switch, first_cycle_end]
  exact ⟨first_cycle_runs, rfl, hlen, hmid, hend,
    switch_cycle initial_state _ _ first_cycle_runs rfl hlen hmid hend⟩

theorem switch_step_percent (c n sg : Int) (p : ℚ) (k : Buttons)
    (hp : ∃ m : Nat, m ≤ 134 ∧ p = 3 * (m : ℚ) / 2) :
    ∃ m : Nat, m ≤ 134 ∧ (switch_step (c, n, sg, p) k).2.2.2 = 3 * (m : ℚ) / 2 := by
  rw [switch_step_eq c n sg p k _ _ _ rfl rfl rfl]
  generalize (if k.x then 1 else if k.y then 0 else n) = req
  have hp1 : ∃ m : Nat, m ≤ 134
      ∧ (if (req ≠ -1 ∧ req ≠ c) ∧ sg = -1 then (0 : ℚ) else p) = 3 * (m : ℚ) / 2 := by
    by_cases hst : (req ≠ -1 ∧ req ≠ c) ∧ sg = -1
    · rw [if_pos hst]
      exact ⟨0, by decide, by norm_num⟩
    · rw [if_neg hst]
      exact hp
  generalize (if (req ≠ -1 ∧ req ≠ c) ∧ sg = -1 then (0 : ℚ) else p) = p1 at hp1 ⊢
  generalize (if (req ≠ -1 ∧ req ≠ c) ∧ sg = -1 then (0 : Int) else sg) = sg1
  obtain ⟨m, hm, rfl⟩ := hp1
  have hstep : 3 * (m : ℚ) / 2 < 200 →
      ∃ m1 : Nat, m1 ≤ 134 ∧ 3 * (m : ℚ) / 2 + 3 / 2 = 3 * (m1 : ℚ) / 2 := by
    intro hlt
    have h1 : (m : ℚ) < 134 := by linarith
    have h2 : m < 134 := by exact_mod_cast h1
    exact ⟨m + 1, by omega, by push_cast; ring⟩
  split_ifs with h0 hlt h1 hlt1
  · exact hstep (by linarith)
  · exact ⟨m, hm, rfl⟩
  · exact hstep hlt1
  · exact ⟨0, by decide, by norm_num⟩
  · exact ⟨m, hm, rfl⟩

theorem reachable_percent (s : State) (h : Reachable s) :
    ∃ m : Nat, m ≤ 134 ∧ s.transition_percent = 3 * (m : ℚ) / 2 := by
  induction h with
  | init => exact ⟨0, by decide, by show (0 : ℚ) = _; norm_num⟩
  | @frame s s1 k ev _ hstep ih =>
    have hsw := (tick_summary s k s1 ev hstep).1
    have hnew := switch_step_percent s.current_game s.next_game s.transition_stage
      s.transition_percent k ih
    have e : switch_step (s.current_game, s.next_game, s.transition_stage,
        s.transition_percent) k = s1.switch := hsw.symm
    rw [e] at hnew
    exact hnew

theorem percent_eq_switch (s : State) : s.transition_percent = s.switch.2.2.2 := rfl

/-- Any number of ticks without buttons from the constructor's state completes. -/
theorem button_free_runs (n : Nat) :
    run_frames initial_state (List.replicate n no_buttons)
      = some (run_ticks initial_state (List.replicate n no_buttons)) := by
  obtain ⟨ticks, h⟩ := run_frames_total (List.replicate n no_buttons) initial_state
    initial_state_ok.1 initial_state_ok.2
    (fun k hk => by rw [List.eq_of_mem_replicate hk]; rfl)
  rw [run_ticks_eq _ _ _ h]
  exact h

/-- After 135 ticks without buttons the wipe is in stage 1 with `transition_percent = 201`:
the tick before found `199.5 < 200` and added `1.5`. -/
theorem wipe_peak_switch :
    (final_state initial_state
      (run_ticks initial_state (List.replicate 135 no_buttons))).switch = (0, -1, 1, 201) := by
  rw [final_state_switch, run_frames_switch _ _ _ (button_free_runs 135)]
  decide!

/-- C11, as stated, fails: the state after 135 ticks without buttons from the constructor's
state is reachable and has `transition_percent = 201`, which is above 200. -/
theorem percent_above_200_counterexample :
    Reachable (final_state initial_state
      (run_ticks initial_state (List.replicate 135 no_buttons)))
    ∧ (final_state initial_state
        (run_ticks initial_state (List.replicate 135 no_buttons))).transition_percent = 201
    ∧ ¬ (final_state initial_state
        (run_ticks initial_state (List.replicate 135 no_buttons))).transition_percent ≤ 200 := by
  refine ⟨run_frames_reachable _ _ _ Reachable.init (button_free_runs 135), ?_, ?_⟩
  · rw [percent_eq_switch, wipe_peak_switch]
  · rw [percent_eq_switch, wipe_peak_switch]
    norm_num

/-- C11 (amended): in every state reachable from the constructor's state by `onFrame` ticks
with any buttons, `0 ≤ transition_percent ≤ 201`: the percent is advanced in steps of 1.5
while it is below 100 (stage 0) or below 200 (stage 1), so it overshoots 200 by one step
before the next tick resets it to 0. -/
theorem percent_range (s : State) (h : Reachable s) :
    0 ≤ s.transition_percent ∧ s.transition_percent ≤ 201 := by
  obtain ⟨m, hm, hp⟩ := reachable_percent s h
  have h1 : (0 : ℚ) ≤ (m : ℚ) := Nat.cast_nonneg m
  have h2 : (m : ℚ) ≤ 134 := by exact_mod_cast hm
  rw [hp]
  constructor
  · linarith
  · linarith

/-- C11 witness: the bound 201 is attained, on the reachable state after 135 ticks without
buttons. -/
theorem percent_range_witness :
    Reachable (final_state initial_state
      (run_ticks initial_state (List.replicate 135 no_buttons)))
    ∧ (0 ≤ (final_state initial_state
          (run_ticks initial_state (List.replicate 135 no_buttons))).transition_percent
      ∧ (final_state initial_state
          (run_ticks initial_state (List.replicate 135 no_buttons))).transition_percent ≤ 201)
    ∧ (final_state initial_state
        (run_ticks initial_state (List.replicate 135 no_buttons))).switch.2.2.2 = 201 :=
  ⟨run_frames_reachable _ _ _ Reachable.init (button_free_runs 135),
    percent_range _ (run_frames_reachable _ _ _ Reachable.init (button_free_runs 135)),
    by rw [wipe_peak_switch]⟩

/-! ## Lookups in the game registry (C12) -/

theorem toNat_lt_game_count (i : Int) (h : 0 ≤ i ∧ i < game_count) :
    i.toNat = 0 ∨ i.toNat = 1 := by
  unfold game_count at h
  omega

theorem advance_games (st a : State) (switched : List Event)
    (h : advance_transition st = some (a, switched)) :
    ∀ e ∈ switched, ∀ g, e.game = some g → g = 0 ∨ g = 1 := by
  have hnil : ∀ e ∈ ([] : List Event), ∀ g, e.game = some g → g = 0 ∨ g = 1 :=
    fun e he => absurd he (List.not_mem_nil e)
  by_cases h0 : st.transition_stage = 0
  · by_cases hlt : st.transition_percent < 100
    · rw [advance_stage0_lt st h0 hlt] at h
      cases h
      exact hnil
    · obtain ⟨hcr, hnr, -, rfl⟩ := (advance_stage0_ge st h0 hlt a switched).mp h
      intro e he g hg
      rcases List.mem_append.mp he with he | he
      · by_cases hc : st.current_game ≠ -1
        · rw [if_pos hc] at he
          rcases List.mem_cons.mp he with rfl | he
          · cases hg
          · rw [List.mem_singleton] at he
            subst he
            cases hg
            exact toNat_lt_game_count _ (hcr hc)
        · rw [if_neg hc] at he
          exact absurd he (List.not_mem_nil e)
      · rw [List.mem_singleton] at he
        subst he
        cases hg
        exact toNat_lt_game_count _ hnr
  · by_cases h1 : st.transition_stage = 1
    · rw [advance_stage1 st h1] at h
      cases h
      exact hnil
    · rw [advance_other st h0 h1] at h
      cases h
      exact hnil

theorem dispatch_games (a : State) (called : List Event) (h : dispatch a = some called) :
    ∀ e ∈ called, ∀ g, e.game = some g → g = 0 ∨ g = 1 := by
  rcases (dispatch_eq_some a called).mp h with ⟨-, rfl⟩ | ⟨-, hr, rfl⟩
  · intro e he
    exact absurd he (List.not_mem_nil e)
  · intro e he g hg
    have hsteps : ∀ l : List Nat, e ∈ l.map Event.step_function → False := by
      intro l hl
      obtain ⟨x, -, rfl⟩ := List.mem_map.mp hl
      cases hg
    have hdraws : ∀ l : List Nat, e ∈ l.map Event.draw_function → False := by
      intro l hl
      obtain ⟨x, -, rfl⟩ := List.mem_map.mp hl
      cases hg
    rcases List.mem_append.mp he with he | he
    · rcases List.mem_append.mp he with he | he
      · by_cases hs : a.transition_stage = -1
        · rw [if_pos hs] at he
          rcases List.mem_append.mp he with he | he
          · exact absurd (hsteps _ he) id
          · rw [List.mem_singleton] at he
            subst he
            cases hg
            exact toNat_lt_game_count _ hr
        · rw [if_neg hs] at he
          exact absurd he (List.not_mem_nil e)
      · exact absurd (hdraws _ he) id
    · rw [List.mem_singleton] at he
      subst he
      cases hg
      exact toNat_lt_game_count _ hr

/-- C12: in every state reachable from the constructor's state by `onFrame` ticks with any
buttons, `current_game` and `next_game` are `-1`, `0` or `1` and `next_game` is not `-1`
during stage 0; hence no `game_list.at` lookup of the next tick fails: a tick with Plus
returns at once, every other tick completes (an `at` outside the registry would throw),
every game it calls is game 0 or game 1, and the index it assigns to `current_game` when
stage 0 completes is 0 or 1, never `-1`. -/
theorem lookups_in_registry (s : State) (h : Reachable s) :
    (s.current_game = -1 ∨ s.current_game = 0 ∨ s.current_game = 1)
    ∧ (s.next_game = -1 ∨ s.next_game = 0 ∨ s.next_game = 1)
    ∧ (s.transition_stage = 0 → s.next_game ≠ -1)
    ∧ ∀ k : Buttons,
        (k.plus = true → onFrame s k = FrameResult.quit)
        ∧ (k.plus = false →
            ∃ s1 ev, onFrame s k = FrameResult.running s1 ev
              ∧ (∀ e ∈ ev, ∀ g, e.game = some g → g = 0 ∨ g = 1)
              ∧ (completes_stage0 s k = true →
                  s1.current_game = 0 ∨ s1.current_game = 1)) := by
  obtain ⟨hi, ht⟩ := reachable_ok s h
  obtain ⟨⟨hc1, hc2⟩, ⟨hn1, hn2⟩, hs0⟩ := hi
  unfold game_count at hc2 hn2
  refine ⟨by omega, by omega, hs0, ?_⟩
  intro k
  constructor
  · intro hp
    unfold onFrame
    rw [if_pos hp]
  · intro hp
    obtain ⟨s1, ev, hstep⟩ := onFrame_total s k (reachable_ok s h).1 ht hp
    refine ⟨s1, ev, hstep, ?_, ?_⟩
    · obtain ⟨st, a, switched, called, -, -, -, -, -, -, -, hadv, hdis, rfl, -⟩ :=
        tick_unfold s k s1 ev hstep
      intro e he
      rcases List.mem_append.mp he with he | he
      · exact advance_games st a switched hadv e he
      · exact dispatch_games a called hdis e he
    · intro hcomp
      obtain ⟨-, -, hrange, hcur, -⟩ := ((tick_summary s k s1 ev hstep).2.1 hcomp)
      have hcur1 : s1.current_game = (handle_buttons s k).next_game := hcur
      have hrange1 : 0 ≤ (handle_buttons s k).next_game
          ∧ (handle_buttons s k).next_game < game_count := hrange
      unfold game_count at hrange1
      omega

/-- After 67 ticks without buttons the wipe is in stage 0 with `transition_percent = 100.5`,
game 0 pending and no game current. -/
theorem closing_end_switch :
    (final_state initial_state
      (run_ticks initial_state (List.replicate 67 no_buttons))).switch
      = (-1, 0, 0, 201 / 2) := by
  rw [final_state_switch, run_frames_switch _ _ _ (button_free_runs 67)]
  decide!

/-- C12 witness: the state after 67 ticks without buttons is reachable; its next tick
completes stage 0: it runs to the end, every game it calls is game 0, and the index it
assigns to `current_game` is 0. -/
theorem lookups_in_registry_witness :
    Reachable (final_state initial_state
      (run_ticks initial_state (List.replicate 67 no_buttons)))
    ∧ no_buttons.plus = false
    ∧ ∃ s1 ev,
        onFrame (final_state initial_state
          (run_ticks initial_state (List.replicate 67 no_buttons))) no_buttons
          = FrameResult.running s1 ev
        ∧ completes_stage0 (final_state initial_state
            (run_ticks initial_state (List.replicate 67 no_buttons))) no_buttons = true
        ∧ (∀ e ∈ ev, ∀ g, e.game = some g → g = 0 ∨ g = 1)
        ∧ s1.current_game = 0 := by
  have hreach := run_frames_reachable _ _ _ Reachable.init (button_free_runs 67)
  obtain ⟨s1, ev, hstep, hgames, hassign⟩ :=
    ((lookups_in_registry _ hreach).2.2.2 no_buttons).2 rfl
  have hsum := tick_summary _ _ _ _ hstep
  have hsw := hsum.1
  rw [closing_end_switch] at hsw
  have hval : switch_step (-1, 0, 0, 201 / 2) no_buttons = (0, -1, 1, 201 / 2) := by decide!
  rw [hval] at hsw
  have hstage : s1.transition_stage = 1 := by rw [stage_eq_switch, hsw]
  have hcur : s1.current_game = 0 := by rw [current_eq_switch, hsw]
  have hpre : (final_state initial_state
      (run_ticks initial_state (List.replicate 67 no_buttons))).transition_stage = 0 := by
    rw [stage_eq_switch, closing_end_switch]
  have hcomp : completes_stage0 (final_state initial_state
      (run_ticks initial_state (List.replicate 67 no_buttons))) no_buttons = true := by
    cases hc : completes_stage0 (final_state initial_state
      (run_ticks initial_state (List.replicate 67 no_buttons))) no_buttons with
    | true => rfl
    | false =>
      have h0 := (hsum.2.2 hc).2.2.1 hpre
      rw [hstage] at h0
      exact absurd h0 (by decide)
  exact ⟨hreach, rfl, s1, ev, hstep, hcomp, hgames, hcur⟩

end BrickGame
